import Mathlib

/-!
# go-swagger: the `generate server` command

A shallow embedding of `cmd/swagger/commands/generate/server.go`.

* `shared`, `Server` are the flag structures of the command.
* `GenOpts` is `generator.GenOpts` restricted to the fields the command names, with one
  extra component standing for the fields it leaves at their zero value.
* `World` collects everything `Server.Execute` reads from outside itself: the working
  directory, the two debug environment variables, and the collaborators of package
  `generator` (`ReadConfig`, `EnsureDefaults`, `ConfigureOpts`, `GenerateServer`) and of
  `viper` (`Unmarshal`).  Collaborators are functions of their arguments; one that receives
  the options by pointer returns the options as it leaves them, and says what it leaves in
  the arrays that the slices of the options share with the slices of the flags.
* `Server.Execute` returns a `Run`: the ordered list of externally visible events together
  with the way the call ended.
* `filepathClean`, `filepathAbs` and `filepathRelDot` are the Unix versions of the functions
  of Go's `path/filepath` that the command calls, the last one being `filepath.Rel` at the
  base path `"."` that the command passes.  Paths are treated as character lists; the only
  characters the algorithms inspect are `/` and `.`, so this agrees with Go's byte-wise
  treatment on every well-formed UTF-8 string.
-/

namespace GoSwagger

/-! ## Go values -/

/-- A Go `error` value, identified by its message. -/
structure GoError where
  msg : String
deriving DecidableEq, Repr

/-! ## `path/filepath` (Unix) -/

/-- The `os.IsPathSeparator` test on Unix. -/
def isPathSeparator (c : Char) : Bool := c == '/'

/-- The inner loop of the `..` case of `filepath.Clean`,
`for out.w > dotdot && !os.IsPathSeparator(out.index(out.w)) { out.w-- }`, which runs after
the first `out.w--`.  The argument is the value of `out.w` when the loop is entered, the
result its value when the loop is left. -/
def cleanBacktrack (out : List Char) (dotdot : Nat) : Nat → Nat
  | 0 => 0
  | w + 1 =>
    if w + 1 > dotdot && !isPathSeparator (out.getD (w + 1) '/') then
      cleanBacktrack out dotdot w
    else w + 1

/-- The main loop `for r < n` of `filepath.Clean`.  `rest` is `path[r:]`, `out` is the
buffer `out.buf[:out.w]`, and the first argument bounds the number of iterations (every
iteration consumes at least one character of `rest`). -/
def cleanLoop (rooted : Bool) : Nat → List Char → List Char → Nat → List Char
  | 0, _, out, _ => out
  | _ + 1, [], out, _ => out
  | fuel + 1, c :: rest, out, dotdot =>
    if isPathSeparator c then
      -- empty path element
      cleanLoop rooted fuel rest out dotdot
    else if c == '.' && (rest.isEmpty || isPathSeparator (rest.headD '/')) then
      -- . element
      cleanLoop rooted fuel rest out dotdot
    else if c == '.' && rest.head? == some '.'
        && (rest.tail.isEmpty || isPathSeparator (rest.tail.headD '/')) then
      -- .. element: remove to last separator
      if out.length > dotdot then
        -- can backtrack
        cleanLoop rooted fuel rest.tail
          (out.take (cleanBacktrack out dotdot (out.length - 1))) dotdot
      else if !rooted then
        -- cannot backtrack, but not rooted, so append .. element.
        let out1 := if out.length > 0 then out ++ ['/'] else out
        let out2 := out1 ++ ['.', '.']
        cleanLoop rooted fuel rest.tail out2 out2.length
      else
        cleanLoop rooted fuel rest.tail out dotdot
    else
      -- real path element: add slash if needed, then copy the element
      let out1 :=
        if (rooted && out.length != 1) || (!rooted && out.length != 0) then out ++ ['/']
        else out
      let elem := (c :: rest).takeWhile (fun x => !isPathSeparator x)
      cleanLoop rooted fuel ((c :: rest).dropWhile (fun x => !isPathSeparator x))
        (out1 ++ elem) dotdot

/-- Go's `filepath.Clean` on Unix (no volume name, `FromSlash` is the identity). -/
def filepathClean (path : String) : String :=
  let p := path.toList
  if p.isEmpty then "."
  else
    let rooted := isPathSeparator (p.headD '.')
    let out :=
      if rooted then cleanLoop rooted p.length p.tail ['/'] 1
      else cleanLoop rooted p.length p [] 0
    -- Turn empty string into "."
    if out.isEmpty then "." else String.mk out

/-- Go's `filepath.IsAbs` on Unix: `strings.HasPrefix(path, "/")`. -/
def filepathIsAbs (path : String) : Bool := path.toList.head? == some '/'

/-- Go's `filepath.Join` for two elements: leading empty elements are dropped, the rest is
joined with the separator and cleaned. -/
def filepathJoin (a b : String) : String :=
  if a ≠ "" then filepathClean (a ++ "/" ++ b)
  else if b ≠ "" then filepathClean b
  else ""

/-- Go's `filepath.Abs` on Unix.  `getwd` is the pair `os.Getwd` returns. -/
def filepathAbs (getwd : String × Option GoError) (path : String) : String × Option GoError :=
  if filepathIsAbs path then (filepathClean path, none)
  else
    match getwd with
    | (_, some e) => ("", some e)
    | (wd, none) => (filepathJoin wd path, none)

/-- The error `filepath.Rel` returns when the target cannot be made relative to the base.
No statement below depends on the wording of the message. -/
def relError (basepath targpath : String) : GoError :=
  ⟨"Rel: can't make " ++ targpath ++ " relative to " ++ basepath⟩

/-- Go's `filepath.Rel(".", targpath)` on Unix, the only way the command calls
`filepath.Rel`.  With `basepath = "."` the function sets `base = ""` after cleaning, so
`baseSlashed` is false, the loop `for bi < bl && ti < tl` that positions the first differing
elements performs no iteration (`bl = 0`), `base[b0:bi]` is empty, `b0 = bl`, and the final
`return targ[t0:], nil` returns all of `targ`. -/
def filepathRelDot (targpath : String) : String × Option GoError :=
  let targ := filepathClean targpath
  if targ == filepathClean "." then (".", none)
  else
    let targSlashed := targ.toList.length > 0 && targ.toList.head? == some '/'
    if false != targSlashed then ("", some (relError "." targpath))
    else (targ, none)

/-! ## Flags and options -/

/-- The flag group `shared`; a `flags.Filename` is a string. -/
structure shared where
  Spec : String
  APIPackage : String
  ModelPackage : String
  ServerPackage : String
  ClientPackage : String
  Target : String
  TemplateDir : String
  ConfigFile : String
deriving DecidableEq, Repr

/-- The flags of the command that generates an entire server application. -/
structure Server extends shared where
  Name : String
  Operations : List String
  Tags : List String
  Principal : String
  DefaultScheme : String
  Models : List String
  SkipModels : Bool
  SkipOperations : Bool
  SkipSupport : Bool
  ExcludeMain : Bool
  ExcludeSpec : Bool
  WithContext : Bool
  DumpData : Bool
deriving DecidableEq, Repr

/-- The flag values the parser produces when no flag is given: the `default:` tags of the
struct fields, and the zero value where there is no tag. -/
def Server.defaults : Server where
  Spec := "./swagger.json"
  APIPackage := "operations"
  ModelPackage := "models"
  ServerPackage := "restapi"
  ClientPackage := "client"
  Target := "./"
  TemplateDir := ""
  ConfigFile := ""
  Name := ""
  Operations := []
  Tags := []
  Principal := ""
  DefaultScheme := "http"
  Models := []
  SkipModels := false
  SkipOperations := false
  SkipSupport := false
  ExcludeMain := false
  ExcludeSpec := false
  WithContext := false
  DumpData := false

/-- The fields of `generator.GenOpts` that the command names in its composite literal.  The
type declaration is not part of this file of the repository; `others` stands for whatever
further fields it has, which the literal leaves at their zero value. -/
structure GenOpts (Rest : Type) where
  Spec : String
  Target : String
  APIPackage : String
  ModelPackage : String
  ServerPackage : String
  ClientPackage : String
  Principal : String
  DefaultScheme : String
  IncludeModel : Bool
  IncludeValidator : Bool
  IncludeHandler : Bool
  IncludeParameters : Bool
  IncludeResponses : Bool
  IncludeMain : Bool
  IncludeSupport : Bool
  ExcludeSpec : Bool
  TemplateDir : String
  WithContext : Bool
  DumpData : Bool
  Models : List String
  Operations : List String
  Tags : List String
  Name : String
  others : Rest
deriving DecidableEq, Repr

/-- The composite literal `&generator.GenOpts{...}` of `Server.Execute` (lines 80-104).
`zero` is the zero value of the fields the literal does not name. -/
def assemble {Rest : Type} (zero : Rest) (s : Server) : GenOpts Rest where
  Spec := s.Spec
  Target := s.Target
  APIPackage := s.APIPackage
  ModelPackage := s.ModelPackage
  ServerPackage := s.ServerPackage
  ClientPackage := s.ClientPackage
  Principal := s.Principal
  DefaultScheme := s.DefaultScheme
  IncludeModel := !s.SkipModels
  IncludeValidator := !s.SkipModels
  IncludeHandler := !s.SkipOperations
  IncludeParameters := !s.SkipOperations
  IncludeResponses := !s.SkipOperations
  IncludeMain := !s.ExcludeMain
  IncludeSupport := !s.SkipSupport
  ExcludeSpec := s.ExcludeSpec
  TemplateDir := s.TemplateDir
  WithContext := s.WithContext
  DumpData := s.DumpData
  Models := s.Models
  Operations := s.Operations
  Tags := s.Tags
  Name := s.Name
  others := zero

/-! ## The environment of the command -/

/-- The contents of the backing arrays of the flag slices `Models`, `Operations` and `Tags`.
The composite literal stores these slices themselves in the options (lines 100-102), so the
options and the flags share the arrays: a callee that is given the options can write the
elements of the flag slices, though not change their length. -/
structure FlagArrays where
  Models : List String
  Operations : List String
  Tags : List String
deriving DecidableEq, Repr

/-- The arrays of the flag slices as the flags hold them. -/
def Server.flagArrays (s : Server) : FlagArrays := ⟨s.Models, s.Operations, s.Tags⟩

/-- The slice `old` after element writes that put the elements of `new` into its array:
the length of `old` stays, an element is replaced where `new` has one. -/
def writeThrough (old new : List String) : List String :=
  new.take old.length ++ old.drop new.length

/-- The flags after a callee left `a` in the arrays of the flag slices: all fields are as
before, except that elements of `Models`, `Operations` and `Tags` may have been written. -/
def Server.written (s : Server) (a : FlagArrays) : Server :=
  { s with
    Models := writeThrough s.Models a.Models
    Operations := writeThrough s.Operations a.Operations
    Tags := writeThrough s.Tags a.Tags }

/-- Everything `Server.Execute` obtains from outside itself.  `Cfg` is the type of a loaded
config document (`viper.Viper`), `Def` is `generator.LanguageDefinition`, `Rest` the
remaining fields of `generator.GenOpts`.  A Go function returning `(T, error)` is a function
into a pair; a method that receives `*GenOpts` returns the options as it leaves them.  Such
a method can also write elements of the flag slices, whose arrays the options share: what
it leaves there is given by a function of its own, and nothing ties it to the slices of the
options it returns, so that every combination a Go callee can produce is covered. -/
structure World (Cfg Def Rest : Type) where
  /-- The zero value of the fields of `GenOpts` that the command does not name. -/
  zeroOthers : Rest
  /-- The result of `os.Getwd()`, which `filepath.Abs` consults for a relative path. -/
  Getwd : String × Option GoError
  /-- The value of `os.Getenv("DEBUG")`. -/
  DEBUG : String
  /-- The value of `os.Getenv("SWAGGER_DEBUG")`. -/
  SWAGGER_DEBUG : String
  /-- The function `generator.ReadConfig(fpath)`; the first component is a nil-able pointer. -/
  ReadConfig : String → Option Cfg × Option GoError
  /-- The method `(*GenOpts).EnsureDefaults(client)`. -/
  EnsureDefaults : GenOpts Rest → Bool → GenOpts Rest × Option GoError
  /-- What a call of `EnsureDefaults` leaves in the arrays shared with the flag slices, given
  what they hold at the call. -/
  EnsureDefaultsWrites : GenOpts Rest → Bool → FlagArrays → FlagArrays
  /-- The call `cfg.Unmarshal(&def)` on a zero-valued `def`: the decoded `def` and the error. -/
  Unmarshal : Cfg → Def × Option GoError
  /-- The method `(*LanguageDefinition).ConfigureOpts(opts)`. -/
  ConfigureOpts : Def → GenOpts Rest → GenOpts Rest
  /-- What a call of `ConfigureOpts` leaves in the arrays shared with the flag slices, given
  what they hold at the call. -/
  ConfigureOptsWrites : Def → GenOpts Rest → FlagArrays → FlagArrays
  /-- The function `generator.GenerateServer(name, modelNames, operationIDs, opts)`. -/
  GenerateServer :
    String → List String → List String → GenOpts Rest → GenOpts Rest × Option GoError

/-- What `Server.Execute` does that is visible from outside, in order of occurrence. -/
inductive Event (Cfg Def Rest : Type) where
  /-- A call of `log.Println` with these arguments. -/
  | logPrintln (args : List String)
  /-- A call of `log.Fatalln(err)`. -/
  | logFatalln (err : GoError)
  /-- A call of `generator.ReadConfig(apt)`. -/
  | ReadConfig (apt : String)
  /-- A call of `cfg.Debug()`, which prints the config document. -/
  | Debug (cfg : Cfg)
  /-- A call of `opts.EnsureDefaults(minimal)`, with the options as they are at the call. -/
  | EnsureDefaults (opts : GenOpts Rest) (minimal : Bool)
  /-- A call of `cfg.Unmarshal(&def)`. -/
  | Unmarshal (cfg : Cfg)
  /-- A call of `def.ConfigureOpts(opts)`, with the options as they are at the call. -/
  | ConfigureOpts (d : Def) (opts : GenOpts Rest)
  /-- A call of `generator.GenerateServer(name, models, operations, opts)`. -/
  | GenerateServer (name : String) (models operations : List String) (opts : GenOpts Rest)
  /-- A text written to `os.Stderr` by `fmt.Fprintf`. -/
  | stderr (text : String)
deriving DecidableEq, Repr

/-- How a call of `Server.Execute` ends: it returns an `error` (possibly nil), or the
process is terminated by `log.Fatalln`, which calls `os.Exit(1)`. -/
inductive Outcome where
  | returned (err : Option GoError)
  | exited (status : Nat)
deriving DecidableEq, Repr

/-- One execution of the command: its events and its end. -/
structure Run (Cfg Def Rest : Type) where
  trace : List (Event Cfg Def Rest)
  outcome : Outcome
deriving DecidableEq, Repr

/-- The text `fmt.Fprintf` writes to `os.Stderr` at the end of a successful run. -/
def reportText (rp : String) : String :=
  "Generation completed!\n\n" ++
  "For this generation to compile you need to have some packages in your GOPATH:\n\n" ++
  "  * github.com/go-openapi/runtime\n" ++
  "  * github.com/tylerb/graceful\n" ++
  "  * github.com/jessevdk/go-flags\n" ++
  "  * golang.org/x/net/context\n\n" ++
  "You can get these now with: go get -u -f " ++ rp ++ "/...\n"

variable {Cfg Def Rest : Type}

/-! ## `Server.Execute` -/

/-- The run `r` preceded by the events `t`. -/
def Run.after (t : List (Event Cfg Def Rest)) (r : Run Cfg Def Rest) : Run Cfg Def Rest :=
  ⟨t ++ r.trace, r.outcome⟩

/-- The flags after the call of `EnsureDefaults` on the assembled options. -/
def Server.afterDefaults (s : Server) (w : World Cfg Def Rest) : Server :=
  s.written (w.EnsureDefaultsWrites (assemble w.zeroOthers s) false s.flagArrays)

/-- The flags `s1` after the call of `ConfigureOpts` of `d` on the options `o1`. -/
def Server.afterOverlay (s1 : Server) (w : World Cfg Def Rest) (d : Def) (o1 : GenOpts Rest) :
    Server :=
  s1.written (w.ConfigureOptsWrites d o1 s1.flagArrays)

/-- Lines 118-139: the call of `generator.GenerateServer`, the relative target path and the
completion report.  `s` is the value of `*s` and `opts` the value of `*opts` at line 118. -/
def Server.generate (s : Server) (w : World Cfg Def Rest) (opts : GenOpts Rest) :
    Run Cfg Def Rest :=
  Run.after [Event.GenerateServer s.Name s.Models s.Operations opts]
    (match w.GenerateServer s.Name s.Models s.Operations opts with
    | (_, some err) => ⟨[], .returned (some err)⟩
    | (opts1, none) =>
      match filepathRelDot opts1.Target with
      | (_, some err) => ⟨[], .returned (some err)⟩
      | (rp, none) => ⟨[Event.stderr (reportText rp)], .returned none⟩)

/-- Lines 72-78: the diagnostic output made when `DEBUG` or `SWAGGER_DEBUG` is set. -/
def debugEvents (w : World Cfg Def Rest) (cfg : Option Cfg) : List (Event Cfg Def Rest) :=
  if w.DEBUG ≠ "" || w.SWAGGER_DEBUG ≠ "" then
    match cfg with
    | some c => [Event.Debug c]
    | none => [Event.logPrintln ["NO config read"]]
  else []

/-- Lines 110-139: the overlay, applied when a config document was loaded, and then the
generation.  `s` is the value of `*s` and `opts1` the value of `*opts` after
`EnsureDefaults`. -/
def Server.overlay (s : Server) (w : World Cfg Def Rest) (cfg : Option Cfg)
    (opts1 : GenOpts Rest) : Run Cfg Def Rest :=
  match cfg with
  | some c =>
    Run.after [Event.Unmarshal c]
      (match w.Unmarshal c with
      | (_, some err) => ⟨[], .returned (some err)⟩
      | (d, none) =>
        Run.after [Event.ConfigureOpts d opts1]
          ((s.afterOverlay w d opts1).generate w (w.ConfigureOpts d opts1)))
  | none => s.generate w opts1

/-- Lines 72-139: the debug output, the assembly of the options, `EnsureDefaults(false)`,
and the rest of the body.  `cfg` is the variable `cfg` after line 71. -/
def Server.configure (s : Server) (w : World Cfg Def Rest) (cfg : Option Cfg) :
    Run Cfg Def Rest :=
  let opts := assemble w.zeroOthers s
  Run.after (debugEvents w cfg ++ [Event.EnsureDefaults opts false])
    (match w.EnsureDefaults opts false with
    | (_, some err) => ⟨[], .returned (some err)⟩
    | (opts1, none) => (s.afterDefaults w).overlay w cfg opts1)

/-- The method `Server.Execute` (its parameter `args` is not used by the body). -/
def Server.Execute (s : Server) (w : World Cfg Def Rest) : Run Cfg Def Rest :=
  if s.ConfigFile ≠ "" then
    match filepathAbs w.Getwd s.ConfigFile with
    | (_, some err) => ⟨[Event.logFatalln err], .exited 1⟩
    | (apt, none) =>
      Run.after [Event.logPrintln ["trying to read config from", apt], Event.ReadConfig apt]
        (match w.ReadConfig apt with
        | (_, some err) => ⟨[], .returned (some err)⟩
        | (v, none) => s.configure w v)
  else s.configure w none

/-! ## Observations on runs -/

/-- The kind of an event: which call it is, without its arguments. -/
inductive Kind where
  | logPrintln | logFatalln | ReadConfig | Debug | EnsureDefaults | Unmarshal
  | ConfigureOpts | GenerateServer | stderr
deriving DecidableEq, Repr

/-- The kind of an event. -/
def Event.kind : Event Cfg Def Rest → Kind
  | .logPrintln _ => .logPrintln
  | .logFatalln _ => .logFatalln
  | .ReadConfig _ => .ReadConfig
  | .Debug _ => .Debug
  | .EnsureDefaults _ _ => .EnsureDefaults
  | .Unmarshal _ => .Unmarshal
  | .ConfigureOpts _ _ => .ConfigureOpts
  | .GenerateServer _ _ _ _ => .GenerateServer
  | .stderr _ => .stderr

/-- The kinds of the events of a run, in order. -/
def Run.kinds (r : Run Cfg Def Rest) : List Kind := r.trace.map Event.kind

/-- The config loader (lines 59-71) completes: no config file is requested, or the path is
made absolute and `ReadConfig` returns without error.  `rd` are the events of the loader
and `cfg` is the variable `cfg` afterwards. -/
def loaderOk (s : Server) (w : World Cfg Def Rest) (rd : List (Event Cfg Def Rest))
    (cfg : Option Cfg) : Prop :=
  (s.ConfigFile = "" ∧ rd = [] ∧ cfg = none) ∨
  (∃ apt, s.ConfigFile ≠ "" ∧ filepathAbs w.Getwd s.ConfigFile = (apt, none) ∧
    w.ReadConfig apt = (cfg, none) ∧
    rd = [Event.logPrintln ["trying to read config from", apt], Event.ReadConfig apt])

/-- The overlay step (lines 110-116) completes: no config document was loaded and the
options and flags stay as they are, or the document is decoded without error and
`ConfigureOpts` is applied.  `s1` and `o1` are the flags and the options before the step,
`s2` and `final` the flags and the options after it, and `ov` the events of the step. -/
def overlayOk (w : World Cfg Def Rest) (cfg : Option Cfg) (s1 : Server) (o1 : GenOpts Rest)
    (s2 : Server) (final : GenOpts Rest) (ov : List (Event Cfg Def Rest)) : Prop :=
  (cfg = none ∧ final = o1 ∧ s2 = s1 ∧ ov = []) ∨
  (∃ c d, cfg = some c ∧ w.Unmarshal c = (d, none) ∧ final = w.ConfigureOpts d o1 ∧
    s2 = s1.afterOverlay w d o1 ∧
    ov = [Event.Unmarshal c, Event.ConfigureOpts d o1])

/-- Whether an event is a call of one of the collaborators. -/
def Event.isCall (ev : Event Cfg Def Rest) : Bool :=
  match ev.kind with
  | .ReadConfig | .EnsureDefaults | .Unmarshal | .ConfigureOpts | .GenerateServer => true
  | _ => false

/-- The calls of collaborators made in a run, with their arguments, in order. -/
def Run.calls (r : Run Cfg Def Rest) : List (Event Cfg Def Rest) := r.trace.filter Event.isCall

/-- Whether an event is log output: a line written by `log.Println`, or the dump written by
`cfg.Debug()`. -/
def Event.isLog (ev : Event Cfg Def Rest) : Bool :=
  match ev.kind with
  | .logPrintln | .Debug => true
  | _ => false

/-- The seven include fields of two option values agree. -/
def sameIncludes (a b : GenOpts Rest) : Prop :=
  a.IncludeModel = b.IncludeModel ∧ a.IncludeValidator = b.IncludeValidator ∧
  a.IncludeHandler = b.IncludeHandler ∧ a.IncludeParameters = b.IncludeParameters ∧
  a.IncludeResponses = b.IncludeResponses ∧ a.IncludeMain = b.IncludeMain ∧
  a.IncludeSupport = b.IncludeSupport

/-- Modelled from the spec: the bodies of `GenOpts.EnsureDefaults` and
`LanguageDefinition.ConfigureOpts` are in package `generator` and not in this file.  The
spec (3, Ownership) says that the flag structures "are created once from parsed input and
are immutable thereafter" and that the two passes mutate the options: neither call writes
an element of a flag slice through the arrays the options share with the flags. -/
def World.leavesFlags (w : World Cfg Def Rest) : Prop :=
  (∀ (s : Server) o m, s.written (w.EnsureDefaultsWrites o m s.flagArrays) = s) ∧
  (∀ (s : Server) d o, s.written (w.ConfigureOptsWrites d o s.flagArrays) = s)

/-- Modelled from the spec: the body of `GenOpts.EnsureDefaults` is in package `generator` and
not in this file.  The spec gives an explicit flag precedence over an engine-computed
default (3), lets the defaults resolver fill fields the user left unset, "e.g., derives an
application name from spec metadata when unset" (4.4), and expects `SkipModels` to be
delivered as `IncludeModel = false` (8): the resolver leaves the seven include fields, which
the command sets from the skip and exclude flags, as it finds them. -/
def World.defaultsKeepIncludes (w : World Cfg Def Rest) : Prop :=
  ∀ o m, sameIncludes (w.EnsureDefaults o m).1 o

/-! ## Concrete flags and worlds -/

/-- The flags `--skip-models`, everything else at its default. -/
def Server.skipModels : Server := { Server.defaults with SkipModels := true }

/-- The flags `--skip-operations --config-file overlay.yml`. -/
def Server.skipOperationsWithConfig : Server :=
  { Server.defaults with SkipOperations := true, ConfigFile := "overlay.yml" }

/-- The flags `--config-file cfg.yml`. -/
def Server.withConfig : Server := { Server.defaults with ConfigFile := "cfg.yml" }

/-- The flags `--config-file cfg.yml --model Pet --operation getPet --skip-models`. -/
def Server.petWithConfig : Server :=
  { Server.defaults with
    ConfigFile := "cfg.yml", Models := ["Pet"], Operations := ["getPet"], SkipModels := true }

/-- The flags `--target /abs/proj/gen`. -/
def Server.absTarget : Server := { Server.defaults with Target := "/abs/proj/gen" }

/-- The flags `--target gen`. -/
def Server.relTarget : Server := { Server.defaults with Target := "gen" }

/-- The flags `--target /tmp/server`. -/
def Server.tmpTarget : Server := { Server.defaults with Target := "/tmp/server" }

/-- The world `w` with the environment variables `DEBUG` and `SWAGGER_DEBUG` set to `d` and
`sd`; everything else is as in `w`. -/
def World.withDebug (w : World Cfg Def Rest) (d sd : String) : World Cfg Def Rest :=
  { w with DEBUG := d, SWAGGER_DEBUG := sd }

/-- A world in which no collaborator fails and none changes the options or writes to the
flag slices: the working directory is `/abs/proj`, the debug variables are unset, a config
document is represented by the path it was read from and decodes to itself. -/
def World.plain : World String String Unit where
  zeroOthers := ()
  Getwd := ("/abs/proj", none)
  DEBUG := ""
  SWAGGER_DEBUG := ""
  ReadConfig := fun apt => (some apt, none)
  EnsureDefaults := fun o _ => (o, none)
  EnsureDefaultsWrites := fun _ _ a => a
  Unmarshal := fun c => (c, none)
  ConfigureOpts := fun _ o => o
  ConfigureOptsWrites := fun _ _ a => a
  GenerateServer := fun _ _ _ o => (o, none)

/-- The plain world, except that the config file is absent: `ReadConfig` fails. -/
def World.missingConfig : World String String Unit :=
  { World.plain with ReadConfig := fun _ => (none, some ⟨"open: no such file or directory"⟩) }

/-- The plain world, except that `EnsureDefaults` fails. -/
def World.badDefaults : World String String Unit :=
  { World.plain with EnsureDefaults := fun o _ => (o, some ⟨"cannot derive a default"⟩) }

/-- The plain world, except that the config document cannot be decoded. -/
def World.badOverlay : World String String Unit :=
  { World.plain with Unmarshal := fun _ => ("", some ⟨"cannot decode the overlay"⟩) }

/-- The plain world, except that `GenerateServer` fails. -/
def World.failingEngine : World String String Unit :=
  { World.plain with GenerateServer := fun _ _ _ o => (o, some ⟨"generation failed"⟩) }

/-- Modelled from the spec: `LanguageDefinition.ConfigureOpts` is in package `generator` and
not in this file; the spec (4.5) says that it "may rewrite any field of GenerationOptions",
and its test list (8) considers "an overlay document that sets IncludeHandler=true".  This is
the plain world with such an overlay. -/
def World.enablingOverlay : World String String Unit :=
  { World.plain with ConfigureOpts := fun _ o => { o with IncludeHandler := true } }

/-- Modelled from the spec: `GenOpts.EnsureDefaults` and `LanguageDefinition.ConfigureOpts` are
in package `generator` and not in this file.  In this world the defaults resolver does what
the spec (4.4) gives as its example, it "derives an application name from spec metadata
when unset" (here the name `petstore`), and the overlay rewrites the template directory to
the one the config document names; neither touches an include field or a flag slice. -/
def World.namingEngine : World String String Unit :=
  { World.plain with
    EnsureDefaults := fun o _ => (if o.Name = "" then { o with Name := "petstore" } else o, none)
    ConfigureOpts := fun d o => { o with TemplateDir := d } }

/-! ## Theorems -/

/-! ### Paths -/

/-- The backtracking loop of `filepath.Clean` does not go below `dotdot`. -/
theorem cleanBacktrack_ge (out : List Char) (dd : Nat) :
    ∀ w, dd ≤ w → dd ≤ cleanBacktrack out dd w := by
  intro w
  induction w with
  | zero => intro h; simpa [cleanBacktrack] using h
  | succ w ih =>
    intro h
    unfold cleanBacktrack
    split
    · next hc =>
      simp at hc
      exact ih (by omega)
    · exact h

/-- For a rooted path the buffer of `filepath.Clean` keeps its leading separator. -/
theorem cleanLoop_rooted_head : ∀ (fuel : Nat) (rest out : List Char),
    out.head? = some '/' → (cleanLoop true fuel rest out 1).head? = some '/' := by
  intro fuel
  induction fuel with
  | zero => intro rest out h; simpa [cleanLoop] using h
  | succ fuel ih =>
    intro rest out h
    cases rest with
    | nil => simpa [cleanLoop] using h
    | cons c rest =>
      unfold cleanLoop
      split
      · exact ih _ _ h
      · split
        · exact ih _ _ h
        · split
          · split
            · next hlen =>
              apply ih
              have := cleanBacktrack_ge out 1 (out.length - 1) (by omega)
              rw [List.head?_take]
              simp [h]
              omega
            · simp
              exact ih _ _ h
          · apply ih
            simp [List.head?_append, h]
            split <;> simp [List.head?_append, h]

/-- For a path that is not rooted the buffer of `filepath.Clean` never starts with a
separator. -/
theorem cleanLoop_unrooted_head : ∀ (fuel : Nat) (rest out : List Char) (dd : Nat),
    out.head? ≠ some '/' → (cleanLoop false fuel rest out dd).head? ≠ some '/' := by
  intro fuel
  induction fuel with
  | zero => intro rest out dd h; simpa [cleanLoop] using h
  | succ fuel ih =>
    intro rest out dd h
    cases rest with
    | nil => simpa [cleanLoop] using h
    | cons c rest =>
      unfold cleanLoop
      split
      · exact ih _ _ _ h
      · next hsep =>
        split
        · exact ih _ _ _ h
        · split
          · split
            · apply ih
              rw [List.head?_take]
              split
              · simp
              · exact h
            · simp only [Bool.not_false, ↓reduceIte]
              apply ih
              cases out with
              | nil => simp
              | cons a out => simpa using h
          · apply ih
            cases out with
            | nil =>
              have hc : (!isPathSeparator c) = true := by simpa using hsep
              simp only [List.takeWhile_cons, hc, ↓reduceIte]
              simp [isPathSeparator] at hsep
              simpa using hsep
            | cons a out => simpa using h


/-- A cleaned path starts with a separator exactly when the path is absolute. -/
theorem filepathClean_head (path : String) :
    (filepathClean path).toList.head? = some '/' ↔ filepathIsAbs path = true := by
  unfold filepathClean filepathIsAbs
  simp only
  cases hp : path.toList with
  | nil => simp
  | cons c rest =>
    simp only [List.isEmpty_cons, Bool.false_eq_true, ↓reduceIte, List.headD_cons,
      List.tail_cons, List.head?_cons, List.length_cons]
    by_cases hc : c = '/'
    · subst hc
      have := cleanLoop_rooted_head (rest.length + 1) rest ['/'] rfl
      simp only [isPathSeparator, beq_self_eq_true, ↓reduceIte]
      cases ho : cleanLoop true (rest.length + 1) rest ['/'] 1 with
      | nil => rw [ho] at this; simp at this
      | cons a l =>
        rw [ho] at this
        simpa using this
    · have := cleanLoop_unrooted_head (rest.length + 1) (c :: rest) [] 0 (by simp)
      have hc2 : isPathSeparator c = false := by simpa [isPathSeparator] using hc
      simp only [hc2, Bool.false_eq_true, ↓reduceIte]
      cases ho : cleanLoop false (rest.length + 1) (c :: rest) [] 0 with
      | nil => simp [hc]
      | cons a l =>
        rw [ho] at this
        simpa [hc] using this

/-- For `filepath.Rel(".", targpath)` an error is returned exactly for an absolute
`targpath`. -/
theorem filepathRelDot_error_iff (targpath : String) :
    (filepathRelDot targpath).2 ≠ none ↔ filepathIsAbs targpath = true := by
  rw [← filepathClean_head]
  unfold filepathRelDot
  simp only
  split
  · next h =>
    have h1 : filepathClean targpath = filepathClean "." := by simpa using h
    rw [h1]
    decide
  · cases hh : (filepathClean targpath).toList with
    | nil => simp
    | cons a l =>
      by_cases ha : a = '/'
      · simp [ha]
      · simp [ha]


/-- The iteration bound of `cleanLoop` is never reached: any two bounds that are at least the
length of the remaining input give the same result. -/
theorem cleanLoop_fuel (rooted : Bool) : ∀ (f1 f2 : Nat) (rest out : List Char) (dd : Nat),
    rest.length ≤ f1 → rest.length ≤ f2 →
    cleanLoop rooted f1 rest out dd = cleanLoop rooted f2 rest out dd := by
  intro f1
  induction f1 with
  | zero =>
    intro f2 rest out dd h1 _
    have : rest = [] := List.length_eq_zero.mp (by omega)
    subst this
    cases f2 <;> simp [cleanLoop]
  | succ f1 ih =>
    intro f2 rest out dd h1 h2
    cases rest with
    | nil => cases f2 <;> simp [cleanLoop]
    | cons c r =>
      cases f2 with
      | zero => simp at h2
      | succ f2 =>
        simp only [List.length_cons, Nat.add_le_add_iff_right] at h1 h2
        have ht : r.tail.length ≤ r.length := by simp
        unfold cleanLoop
        split
        · exact ih _ _ _ _ h1 h2
        · next hsep =>
          split
          · exact ih _ _ _ _ h1 h2
          · split
            · split
              · exact ih _ _ _ _ (by omega) (by omega)
              · split
                · exact ih _ _ _ _ (by omega) (by omega)
                · exact ih _ _ _ _ (by omega) (by omega)
            · have hc : (!isPathSeparator c) = true := by simpa using hsep
              have hd : ((c :: r).dropWhile (fun x => !isPathSeparator x)).length ≤ r.length := by
                rw [List.dropWhile_cons, if_pos hc]
                exact (List.dropWhile_sublist _).length_le
              exact ih _ _ _ _ (by omega) (by omega)

/-! ### The phases, case by case -/

theorem generate_failed (s : Server) (w : World Cfg Def Rest) (opts o2 : GenOpts Rest)
    (e : GoError) (h : w.GenerateServer s.Name s.Models s.Operations opts = (o2, some e)) :
    s.generate w opts =
      ⟨[Event.GenerateServer s.Name s.Models s.Operations opts], .returned (some e)⟩ := by
  simp [Server.generate, Run.after, h]

theorem generate_relFailed (s : Server) (w : World Cfg Def Rest) (opts o2 : GenOpts Rest)
    (x : String) (e : GoError)
    (h : w.GenerateServer s.Name s.Models s.Operations opts = (o2, none))
    (hr : filepathRelDot o2.Target = (x, some e)) :
    s.generate w opts =
      ⟨[Event.GenerateServer s.Name s.Models s.Operations opts], .returned (some e)⟩ := by
  simp [Server.generate, Run.after, h, hr]

theorem generate_done (s : Server) (w : World Cfg Def Rest) (opts o2 : GenOpts Rest)
    (rp : String)
    (h : w.GenerateServer s.Name s.Models s.Operations opts = (o2, none))
    (hr : filepathRelDot o2.Target = (rp, none)) :
    s.generate w opts =
      ⟨[Event.GenerateServer s.Name s.Models s.Operations opts, Event.stderr (reportText rp)],
        .returned none⟩ := by
  simp [Server.generate, Run.after, h, hr]

/-- The three ways the generation phase can go. -/
theorem generate_cases (s : Server) (w : World Cfg Def Rest) (opts : GenOpts Rest) :
    (∃ o2 e, w.GenerateServer s.Name s.Models s.Operations opts = (o2, some e) ∧
      s.generate w opts =
        ⟨[Event.GenerateServer s.Name s.Models s.Operations opts], .returned (some e)⟩) ∨
    (∃ o2 x e, w.GenerateServer s.Name s.Models s.Operations opts = (o2, none) ∧
      filepathRelDot o2.Target = (x, some e) ∧
      s.generate w opts =
        ⟨[Event.GenerateServer s.Name s.Models s.Operations opts], .returned (some e)⟩) ∨
    (∃ o2 rp, w.GenerateServer s.Name s.Models s.Operations opts = (o2, none) ∧
      filepathRelDot o2.Target = (rp, none) ∧
      s.generate w opts =
        ⟨[Event.GenerateServer s.Name s.Models s.Operations opts,
          Event.stderr (reportText rp)], .returned none⟩) := by
  rcases hG : w.GenerateServer s.Name s.Models s.Operations opts with ⟨o2, _ | e⟩
  · rcases hR : filepathRelDot o2.Target with ⟨rp, _ | e⟩
    · exact Or.inr (Or.inr ⟨o2, rp, rfl, hR, generate_done s w opts o2 rp hG hR⟩)
    · exact Or.inr (Or.inl ⟨o2, rp, e, rfl, hR, generate_relFailed s w opts o2 rp e hG hR⟩)
  · exact Or.inl ⟨o2, e, rfl, generate_failed s w opts o2 e hG⟩

/-- The three ways the overlay phase can go. -/
theorem overlay_cases (s : Server) (w : World Cfg Def Rest) (cfg : Option Cfg)
    (o1 : GenOpts Rest) :
    (cfg = none ∧ s.overlay w cfg o1 = s.generate w o1) ∨
    (∃ c d e, cfg = some c ∧ w.Unmarshal c = (d, some e) ∧
      s.overlay w cfg o1 = ⟨[Event.Unmarshal c], .returned (some e)⟩) ∨
    (∃ c d, cfg = some c ∧ w.Unmarshal c = (d, none) ∧
      s.overlay w cfg o1 =
        Run.after [Event.Unmarshal c, Event.ConfigureOpts d o1]
          ((s.afterOverlay w d o1).generate w (w.ConfigureOpts d o1))) := by
  cases cfg with
  | none => exact Or.inl ⟨rfl, rfl⟩
  | some c =>
    rcases hU : w.Unmarshal c with ⟨d, _ | e⟩
    · exact Or.inr (Or.inr ⟨c, d, rfl, hU, by simp [Server.overlay, Run.after, hU]⟩)
    · exact Or.inr (Or.inl ⟨c, d, e, rfl, hU, by simp [Server.overlay, Run.after, hU]⟩)

/-- The two ways the defaults phase can go. -/
theorem configure_cases (s : Server) (w : World Cfg Def Rest) (cfg : Option Cfg) :
    (∃ o1 e, w.EnsureDefaults (assemble w.zeroOthers s) false = (o1, some e) ∧
      s.configure w cfg =
        ⟨debugEvents w cfg ++ [Event.EnsureDefaults (assemble w.zeroOthers s) false],
          .returned (some e)⟩) ∨
    (∃ o1, w.EnsureDefaults (assemble w.zeroOthers s) false = (o1, none) ∧
      s.configure w cfg =
        Run.after (debugEvents w cfg ++ [Event.EnsureDefaults (assemble w.zeroOthers s) false])
          ((s.afterDefaults w).overlay w cfg o1)) := by
  rcases hD : w.EnsureDefaults (assemble w.zeroOthers s) false with ⟨o1, _ | e⟩
  · exact Or.inr ⟨o1, rfl, by simp [Server.configure, hD]⟩
  · exact Or.inl ⟨o1, e, rfl, by simp [Server.configure, Run.after, hD]⟩

/-- The four ways the config loader can go. -/
theorem Execute_cases (s : Server) (w : World Cfg Def Rest) :
    (s.ConfigFile = "" ∧ s.Execute w = s.configure w none) ∨
    (∃ x e, s.ConfigFile ≠ "" ∧ filepathAbs w.Getwd s.ConfigFile = (x, some e) ∧
      s.Execute w = ⟨[Event.logFatalln e], .exited 1⟩) ∨
    (∃ apt v e, s.ConfigFile ≠ "" ∧ filepathAbs w.Getwd s.ConfigFile = (apt, none) ∧
      w.ReadConfig apt = (v, some e) ∧
      s.Execute w =
        ⟨[Event.logPrintln ["trying to read config from", apt], Event.ReadConfig apt],
          .returned (some e)⟩) ∨
    (∃ apt v, s.ConfigFile ≠ "" ∧ filepathAbs w.Getwd s.ConfigFile = (apt, none) ∧
      w.ReadConfig apt = (v, none) ∧
      s.Execute w =
        Run.after [Event.logPrintln ["trying to read config from", apt], Event.ReadConfig apt]
          (s.configure w v)) := by
  by_cases hc : s.ConfigFile = ""
  · exact Or.inl ⟨hc, by simp [Server.Execute, hc]⟩
  · rcases hA : filepathAbs w.Getwd s.ConfigFile with ⟨apt, _ | e⟩
    · rcases hR : w.ReadConfig apt with ⟨v, _ | e⟩
      · exact Or.inr (Or.inr (Or.inr ⟨apt, v, hc, rfl, hR,
          by simp [Server.Execute, hc, hA, hR]⟩))
      · exact Or.inr (Or.inr (Or.inl ⟨apt, v, e, hc, rfl, hR,
          by simp [Server.Execute, Run.after, hc, hA, hR]⟩))
    · exact Or.inr (Or.inl ⟨apt, e, hc, rfl, by simp [Server.Execute, hc, hA]⟩)

/-- The events of the debug block are log output. -/
theorem debugEvents_kind (w : World Cfg Def Rest) (cfg : Option Cfg)
    (ev : Event Cfg Def Rest) (h : ev ∈ debugEvents w cfg) :
    ev.kind = Kind.Debug ∨ ev.kind = Kind.logPrintln := by
  unfold debugEvents at h
  split at h
  · cases cfg <;> simp at h <;> subst h <;> simp [Event.kind]
  · simp at h

/-- When the loader, the defaults and the overlay complete, the run consists of their
events followed by the generation phase on the final options. -/
theorem Execute_generates (s : Server) (w : World Cfg Def Rest)
    (rd ov : List (Event Cfg Def Rest)) (cfg : Option Cfg) (o1 final : GenOpts Rest)
    (s2 : Server) (hl : loaderOk s w rd cfg)
    (hD : w.EnsureDefaults (assemble w.zeroOthers s) false = (o1, none))
    (ho : overlayOk w cfg (s.afterDefaults w) o1 s2 final ov) :
    s.Execute w =
      Run.after
        (rd ++ debugEvents w cfg ++ [Event.EnsureDefaults (assemble w.zeroOthers s) false]
          ++ ov)
        (s2.generate w final) := by
  rcases hl with ⟨hc, rfl, rfl⟩ | ⟨apt, hc, hA, hR, rfl⟩ <;>
  rcases ho with ⟨hn, rfl, rfl, rfl⟩ | ⟨c, d, hn, hU, rfl, rfl, rfl⟩ <;>
  simp_all [Server.Execute, Server.configure, Server.overlay, Run.after]

/-- Every run of the command takes one of five paths: the config path cannot be made
absolute; `ReadConfig` fails; `EnsureDefaults` fails; decoding the overlay fails; or the
generation phase is entered. -/
theorem Execute_paths (s : Server) (w : World Cfg Def Rest) :
    (∃ x e, s.ConfigFile ≠ "" ∧ filepathAbs w.Getwd s.ConfigFile = (x, some e) ∧
      s.Execute w = ⟨[Event.logFatalln e], .exited 1⟩) ∨
    (∃ apt v e, s.ConfigFile ≠ "" ∧ filepathAbs w.Getwd s.ConfigFile = (apt, none) ∧
      w.ReadConfig apt = (v, some e) ∧
      s.Execute w =
        ⟨[Event.logPrintln ["trying to read config from", apt], Event.ReadConfig apt],
          .returned (some e)⟩) ∨
    (∃ rd cfg o1 e, loaderOk s w rd cfg ∧
      w.EnsureDefaults (assemble w.zeroOthers s) false = (o1, some e) ∧
      s.Execute w =
        ⟨rd ++ debugEvents w cfg ++ [Event.EnsureDefaults (assemble w.zeroOthers s) false],
          .returned (some e)⟩) ∨
    (∃ rd c o1 d e, loaderOk s w rd (some c) ∧
      w.EnsureDefaults (assemble w.zeroOthers s) false = (o1, none) ∧
      w.Unmarshal c = (d, some e) ∧
      s.Execute w =
        ⟨rd ++ debugEvents w (some c)
            ++ [Event.EnsureDefaults (assemble w.zeroOthers s) false, Event.Unmarshal c],
          .returned (some e)⟩) ∨
    (∃ rd cfg o1 s2 final ov, loaderOk s w rd cfg ∧
      w.EnsureDefaults (assemble w.zeroOthers s) false = (o1, none) ∧
      overlayOk w cfg (s.afterDefaults w) o1 s2 final ov ∧
      s.Execute w =
        Run.after
          (rd ++ debugEvents w cfg ++ [Event.EnsureDefaults (assemble w.zeroOthers s) false]
            ++ ov)
          (s2.generate w final)) := by
  have key : ∀ rd cfg, loaderOk s w rd cfg → s.Execute w = Run.after rd (s.configure w cfg) →
      (∃ rd cfg o1 e, loaderOk s w rd cfg ∧
        w.EnsureDefaults (assemble w.zeroOthers s) false = (o1, some e) ∧
        s.Execute w =
          ⟨rd ++ debugEvents w cfg ++ [Event.EnsureDefaults (assemble w.zeroOthers s) false],
            .returned (some e)⟩) ∨
      (∃ rd c o1 d e, loaderOk s w rd (some c) ∧
        w.EnsureDefaults (assemble w.zeroOthers s) false = (o1, none) ∧
        w.Unmarshal c = (d, some e) ∧
        s.Execute w =
          ⟨rd ++ debugEvents w (some c)
              ++ [Event.EnsureDefaults (assemble w.zeroOthers s) false, Event.Unmarshal c],
            .returned (some e)⟩) ∨
      (∃ rd cfg o1 s2 final ov, loaderOk s w rd cfg ∧
        w.EnsureDefaults (assemble w.zeroOthers s) false = (o1, none) ∧
        overlayOk w cfg (s.afterDefaults w) o1 s2 final ov ∧
        s.Execute w =
          Run.after
            (rd ++ debugEvents w cfg ++ [Event.EnsureDefaults (assemble w.zeroOthers s) false]
              ++ ov)
            (s2.generate w final)) := by
    intro rd cfg hl hE
    rcases configure_cases s w cfg with ⟨o1, e, hD, hC⟩ | ⟨o1, hD, hC⟩
    · refine Or.inl ⟨rd, cfg, o1, e, hl, hD, ?_⟩
      rw [hE, hC]
      simp [Run.after]
    · rcases overlay_cases (s.afterDefaults w) w cfg o1 with ⟨hn, hO⟩ | ⟨c, d, e, hn, hU, hO⟩ |
        ⟨c, d, hn, hU, hO⟩
      · exact Or.inr (Or.inr ⟨rd, cfg, o1, _, o1, [], hl, hD, Or.inl ⟨hn, rfl, rfl, rfl⟩,
          Execute_generates s w rd [] cfg o1 o1 _ hl hD (Or.inl ⟨hn, rfl, rfl, rfl⟩)⟩)
      · subst hn
        refine Or.inr (Or.inl ⟨rd, c, o1, d, e, hl, hD, hU, ?_⟩)
        rw [hE, hC, hO]
        simp [Run.after]
      · exact Or.inr (Or.inr ⟨rd, cfg, o1, _, _, _, hl, hD,
          Or.inr ⟨c, d, hn, hU, rfl, rfl, rfl⟩,
          Execute_generates s w rd _ cfg o1 _ _ hl hD (Or.inr ⟨c, d, hn, hU, rfl, rfl, rfl⟩)⟩)
  rcases Execute_cases s w with ⟨hc, hE⟩ | ⟨x, e1, hc, hA, hE⟩ | ⟨apt, v, e1, hc, hA, hR, hE⟩ |
    ⟨apt, v, hc, hA, hR, hE⟩
  · exact Or.inr (Or.inr (key [] none (Or.inl ⟨hc, rfl, rfl⟩) (by simp [hE, Run.after])))
  · exact Or.inl ⟨x, e1, hc, hA, hE⟩
  · exact Or.inr (Or.inl ⟨apt, v, e1, hc, hA, hR, hE⟩)
  · exact Or.inr (Or.inr (key _ v (Or.inr ⟨apt, hc, hA, hR, rfl⟩) hE))

/-- An event of the generation phase is the call of `GenerateServer` or the report. -/
theorem generate_mem (s : Server) (w : World Cfg Def Rest) (opts : GenOpts Rest)
    (ev : Event Cfg Def Rest) (h : ev ∈ (s.generate w opts).trace) :
    ev = Event.GenerateServer s.Name s.Models s.Operations opts ∨ ev.kind = Kind.stderr := by
  rcases generate_cases s w opts with ⟨_, _, _, hg⟩ | ⟨_, _, _, _, _, hg⟩ | ⟨_, _, _, _, hg⟩ <;>
    rw [hg] at h <;> simp at h
  · exact Or.inl h
  · exact Or.inl h
  · rcases h with h | h
    · exact Or.inl h
    · exact Or.inr (by rw [h]; rfl)


/-- The events of the config loader are a log line and the call of `ReadConfig`. -/
theorem loaderOk_kind (s : Server) (w : World Cfg Def Rest) (rd : List (Event Cfg Def Rest))
    (cfg : Option Cfg) (hl : loaderOk s w rd cfg) (ev : Event Cfg Def Rest) (h : ev ∈ rd) :
    ev.kind = Kind.logPrintln ∨ ev.kind = Kind.ReadConfig := by
  rcases hl with ⟨_, rfl, _⟩ | ⟨apt, _, _, _, rfl⟩
  · simp at h
  · simp at h
    rcases h with rfl | rfl <;> simp [Event.kind]

/-- The events of the overlay step are the calls of `Unmarshal` and `ConfigureOpts`. -/
theorem overlayOk_kind (w : World Cfg Def Rest) (cfg : Option Cfg) (s1 s2 : Server)
    (o1 final : GenOpts Rest)
    (ov : List (Event Cfg Def Rest)) (ho : overlayOk w cfg s1 o1 s2 final ov)
    (ev : Event Cfg Def Rest) (h : ev ∈ ov) :
    ev.kind = Kind.Unmarshal ∨ ev.kind = Kind.ConfigureOpts := by
  rcases ho with ⟨_, _, _, rfl⟩ | ⟨c, d, _, _, _, _, rfl⟩
  · simp at h
  · simp at h
    rcases h with rfl | rfl <;> simp [Event.kind]

/-- A call of `GenerateServer` in a run is made after the loader, the defaults and the
overlay completed, with the fields `Name`, `Models` and `Operations` of the flags and the
options as these steps left them; the run is then the events of these steps followed by
the generation phase. -/
theorem generateServer_event (s : Server) (w : World Cfg Def Rest)
    (n : String) (m o : List String) (opts : GenOpts Rest)
    (h : Event.GenerateServer n m o opts ∈ (s.Execute w).trace) :
    ∃ rd cfg o1 s2 ov, loaderOk s w rd cfg ∧
      w.EnsureDefaults (assemble w.zeroOthers s) false = (o1, none) ∧
      overlayOk w cfg (s.afterDefaults w) o1 s2 opts ov ∧
      n = s2.Name ∧ m = s2.Models ∧ o = s2.Operations ∧
      s.Execute w =
        Run.after
          (rd ++ debugEvents w cfg ++ [Event.EnsureDefaults (assemble w.zeroOthers s) false]
            ++ ov)
          (s2.generate w opts) := by
  have hrd : ∀ rd cfg, loaderOk s w rd cfg → Event.GenerateServer n m o opts ∉ rd := by
    intro rd cfg hl hm
    rcases loaderOk_kind s w rd cfg hl _ hm with h1 | h1 <;> simp [Event.kind] at h1
  have hdbg : ∀ cfg, Event.GenerateServer n m o opts ∉ debugEvents w cfg := by
    intro cfg hm
    rcases debugEvents_kind w cfg _ hm with h1 | h1 <;> simp [Event.kind] at h1
  have hov : ∀ cfg s1 o1 s2 final ov, overlayOk w cfg s1 o1 s2 final ov →
      Event.GenerateServer n m o opts ∉ ov := by
    intro cfg s1 o1 s2 final ov ho hm
    rcases overlayOk_kind w cfg s1 s2 o1 final ov ho _ hm with h1 | h1 <;>
      simp [Event.kind] at h1
  rcases Execute_paths s w with ⟨x, e, _, _, hE⟩ | ⟨apt, v, e, _, _, _, hE⟩ |
    ⟨rd, cfg, o1, e, hl, hD, hE⟩ | ⟨rd, c, o1, d, e, hl, hD, hU, hE⟩ |
    ⟨rd, cfg, o1, s2, final, ov, hl, hD, ho, hE⟩
  · simp [hE] at h
  · simp [hE] at h
  · simp [hE, hrd rd cfg hl, hdbg] at h
  · simp [hE, hrd rd _ hl, hdbg] at h
  · rw [hE] at h
    simp [Run.after, hrd rd cfg hl, hdbg, hov cfg _ o1 s2 final ov ho] at h
    rcases generate_mem s2 w final _ h with h1 | h1
    · simp at h1
      obtain ⟨rfl, rfl, rfl, rfl⟩ := h1
      exact ⟨rd, cfg, o1, s2, ov, hl, hD, ho, rfl, rfl, rfl, hE⟩
    · simp [Event.kind] at h1

/-- A kind occurs in a run exactly when an event of that kind does. -/
theorem mem_kinds (r : Run Cfg Def Rest) (k : Kind) :
    k ∈ r.kinds ↔ ∃ ev ∈ r.trace, ev.kind = k := by
  simp [Run.kinds]

/-- The three forms of the debug block. -/
theorem debugEvents_cases (w : World Cfg Def Rest) (cfg : Option Cfg) :
    debugEvents w cfg = [] ∨ (∃ c, cfg = some c ∧ debugEvents w cfg = [Event.Debug c]) ∨
    (cfg = none ∧ debugEvents w cfg = [Event.logPrintln ["NO config read"]]) := by
  unfold debugEvents
  split
  · cases cfg <;> simp
  · simp

/-- With an empty `ConfigFile` the loader does nothing and leaves `cfg` nil. -/
theorem loaderOk_empty (s : Server) (w : World Cfg Def Rest) (rd : List (Event Cfg Def Rest))
    (cfg : Option Cfg) (hc : s.ConfigFile = "") (hl : loaderOk s w rd cfg) :
    rd = [] ∧ cfg = none := by
  rcases hl with ⟨_, h1, h2⟩ | ⟨apt, h, _⟩
  · exact ⟨h1, h2⟩
  · exact absurd hc h

/-- Without a loaded config document the overlay step does nothing. -/
theorem overlayOk_none (w : World Cfg Def Rest) (s1 s2 : Server) (o1 final : GenOpts Rest)
    (ov : List (Event Cfg Def Rest)) (ho : overlayOk w none s1 o1 s2 final ov) :
    final = o1 ∧ s2 = s1 ∧ ov = [] := by
  rcases ho with ⟨_, h1, h2, h3⟩ | ⟨c, d, h, _⟩
  · exact ⟨h1, h2, h3⟩
  · simp at h

/-- Execution of the command: C3.  When `ConfigFile` is empty, `ReadConfig`, `Unmarshal` and
`ConfigureOpts` are never called, every call of `GenerateServer` receives exactly the options
that `EnsureDefaults` left (and `EnsureDefaults` returned no error), and `GenerateServer` is
called whenever `EnsureDefaults` returns no error, with the flag `Name` and the flag slices
`Models` and `Operations` as the call of `EnsureDefaults` left them. -/
theorem empty_configFile_skips_overlay (s : Server) (w : World Cfg Def Rest)
    (hc : s.ConfigFile = "") :
    Kind.ReadConfig ∉ (s.Execute w).kinds ∧ Kind.Unmarshal ∉ (s.Execute w).kinds ∧
    Kind.ConfigureOpts ∉ (s.Execute w).kinds ∧
    (∀ n m o opts, Event.GenerateServer n m o opts ∈ (s.Execute w).trace →
      w.EnsureDefaults (assemble w.zeroOthers s) false = (opts, none)) ∧
    (∀ o1, w.EnsureDefaults (assemble w.zeroOthers s) false = (o1, none) →
      Event.GenerateServer s.Name (s.afterDefaults w).Models (s.afterDefaults w).Operations o1
        ∈ (s.Execute w).trace) := by
  rcases Execute_paths s w with ⟨x, e, h, _, hE⟩ | ⟨apt, v, e, h, _, _, hE⟩ |
    ⟨rd, cfg, o1, e, hl, hD, hE⟩ | ⟨rd, c, o1, d, e, hl, hD, hU, hE⟩ |
    ⟨rd, cfg, o1, s2, final, ov, hl, hD, ho, hE⟩
  · exact absurd hc h
  · exact absurd hc h
  · obtain ⟨rfl, rfl⟩ := loaderOk_empty s w rd cfg hc hl
    rcases debugEvents_cases w none with hd | ⟨c, ⟨⟩, hd⟩ | ⟨_, hd⟩ <;>
      simp [hE, hd, hD, Run.kinds, Event.kind]
  · have := (loaderOk_empty s w rd _ hc hl).2
    simp at this
  · obtain ⟨rfl, rfl⟩ := loaderOk_empty s w rd cfg hc hl
    obtain ⟨rfl, rfl, rfl⟩ := overlayOk_none w _ s2 o1 final ov ho
    have hname : (s.afterDefaults w).Name = s.Name := rfl
    rcases debugEvents_cases w none with hd | ⟨c, ⟨⟩, hd⟩ | ⟨_, hd⟩ <;>
    rcases generate_cases (s.afterDefaults w) w final with ⟨o3, e3, hG, hg⟩ |
      ⟨o3, x, e3, hG, hr, hg⟩ | ⟨o3, rp, hG, hr, hg⟩ <;>
    simp [hE, hd, hD, hg, hname, Run.after, Run.kinds, Event.kind] <;>
    exact fun _ _ _ _ _ _ _ h => h.symm

/-- Execution of the command: C5.  Whenever `GenerateServer` is called and returns a non-nil
error, `Execute` returns exactly that error, the call is the last event of the run, and no
completion report is written. -/
theorem generateServer_error_returned (s : Server) (w : World Cfg Def Rest)
    (n : String) (m o : List String) (opts o2 : GenOpts Rest) (e : GoError)
    (hcall : Event.GenerateServer n m o opts ∈ (s.Execute w).trace)
    (herr : w.GenerateServer n m o opts = (o2, some e)) :
    (s.Execute w).outcome = .returned (some e) ∧
    (s.Execute w).trace.getLast? = some (Event.GenerateServer n m o opts) ∧
    Kind.stderr ∉ (s.Execute w).kinds := by
  obtain ⟨rd, cfg, o1, s2, ov, hl, hD, ho, rfl, rfl, rfl, hE⟩ :=
    generateServer_event s w n m o opts hcall
  rw [hE, generate_failed s2 w opts o2 e herr]
  refine ⟨rfl, List.getLast?_concat _, ?_⟩
  rw [mem_kinds]
  rintro ⟨ev, hm, hk⟩
  simp only [Run.after, List.mem_append, List.mem_singleton] at hm
  rcases hm with (((hm | hm) | hm) | hm) | hm
  · rcases loaderOk_kind s w rd cfg hl ev hm with h | h <;> simp [h] at hk
  · rcases debugEvents_kind w cfg ev hm with h | h <;> simp [h] at hk
  · simp [hm, Event.kind] at hk
  · rcases overlayOk_kind w cfg _ _ o1 opts ov ho ev hm with h | h <;> simp [h] at hk
  · simp [hm, Event.kind] at hk

/-- Execution of the command: C6, as amended.  Whenever `GenerateServer` is called, the run
ends in one of three ways.  It returns an error: `Execute` returns that error, the call is
the last event and no report is written.  It returns nil and `filepath.Rel` yields a path:
the run ends with the call followed by the report for that path, and `Execute` returns nil.
It returns nil and `filepath.Rel` returns an error: `Execute` returns that error, the call is
the last event and no report is written.  In particular, for every target that is not an
absolute path, whenever `GenerateServer` returns nil the report is written and `Execute`
returns nil. -/
theorem generateServer_outcomes (s : Server) (w : World Cfg Def Rest)
    (n : String) (m o : List String) (opts : GenOpts Rest)
    (hcall : Event.GenerateServer n m o opts ∈ (s.Execute w).trace) :
    ((∃ o2 e, w.GenerateServer n m o opts = (o2, some e) ∧
      (s.Execute w).outcome = .returned (some e) ∧
      (s.Execute w).trace.getLast? = some (Event.GenerateServer n m o opts) ∧
      Kind.stderr ∉ (s.Execute w).kinds) ∨
    (∃ o2 rp, w.GenerateServer n m o opts = (o2, none) ∧
      filepathRelDot o2.Target = (rp, none) ∧
      (s.Execute w).outcome = .returned none ∧
      ∃ pre, (s.Execute w).trace =
        pre ++ [Event.GenerateServer n m o opts, Event.stderr (reportText rp)]) ∨
    (∃ o2 x e, w.GenerateServer n m o opts = (o2, none) ∧
      filepathRelDot o2.Target = (x, some e) ∧
      (s.Execute w).outcome = .returned (some e) ∧
      (s.Execute w).trace.getLast? = some (Event.GenerateServer n m o opts) ∧
      Kind.stderr ∉ (s.Execute w).kinds)) ∧
    (∀ o2, w.GenerateServer n m o opts = (o2, none) → filepathIsAbs o2.Target = false →
      (s.Execute w).outcome = .returned none ∧
      (s.Execute w).trace.getLast?
        = some (Event.stderr (reportText (filepathRelDot o2.Target).1))) := by
  obtain ⟨rd, cfg, o1, s2, ov, hl, hD, ho, rfl, rfl, rfl, hE⟩ :=
    generateServer_event s w n m o opts hcall
  have hpre : ∀ ev ∈ rd ++ debugEvents w cfg
      ++ [Event.EnsureDefaults (assemble w.zeroOthers s) false] ++ ov,
      ev.kind ≠ Kind.stderr := by
    intro ev hm hk
    simp only [List.mem_append, List.mem_singleton] at hm
    rcases hm with ((hm | hm) | hm) | hm
    · rcases loaderOk_kind s w rd cfg hl ev hm with h | h <;> simp [h] at hk
    · rcases debugEvents_kind w cfg ev hm with h | h <;> simp [h] at hk
    · simp [hm, Event.kind] at hk
    · rcases overlayOk_kind w cfg _ _ o1 opts ov ho ev hm with h | h <;> simp [h] at hk
  have hno : ∀ e, Kind.stderr ∉ (Run.after (rd ++ debugEvents w cfg
      ++ [Event.EnsureDefaults (assemble w.zeroOthers s) false] ++ ov)
      (⟨[Event.GenerateServer s2.Name s2.Models s2.Operations opts], e⟩ : Run Cfg Def Rest)).kinds := by
    intro e
    rw [mem_kinds]
    rintro ⟨ev, hm, hk⟩
    simp only [Run.after, List.mem_append, List.mem_singleton] at hm
    rcases hm with hm | hm
    · exact hpre ev (by simpa only [List.mem_append, List.mem_singleton] using hm) hk
    · simp [hm, Event.kind] at hk
  rcases generate_cases s2 w opts with ⟨o3, e3, hG, hg⟩ | ⟨o3, x, e3, hG, hr, hg⟩ |
    ⟨o3, rp, hG, hr, hg⟩
  · refine ⟨Or.inl ⟨o3, e3, hG, ?_⟩, ?_⟩
    · rw [hE, hg]
      exact ⟨rfl, List.getLast?_concat _, hno _⟩
    · intro o2 h2
      rw [hG] at h2
      simp at h2
  · refine ⟨Or.inr (Or.inr ⟨o3, x, e3, hG, hr, ?_⟩), ?_⟩
    · rw [hE, hg]
      exact ⟨rfl, List.getLast?_concat _, hno _⟩
    · intro o2 h2 habs
      rw [hG] at h2
      obtain rfl : o3 = o2 := by simpa using h2
      have := (filepathRelDot_error_iff o3.Target).mp (by rw [hr]; simp)
      rw [habs] at this
      simp at this
  · refine ⟨Or.inr (Or.inl ⟨o3, rp, hG, hr, ?_⟩), ?_⟩
    · rw [hE, hg]
      exact ⟨rfl, _, rfl⟩
    · intro o2 h2 _
      rw [hG] at h2
      obtain rfl : o3 = o2 := by simpa using h2
      rw [hE, hg, hr]
      refine ⟨rfl, ?_⟩
      have hassoc : (Run.after
          (rd ++ debugEvents w cfg ++ [Event.EnsureDefaults (assemble w.zeroOthers s) false]
            ++ ov)
          (⟨[Event.GenerateServer s2.Name s2.Models s2.Operations opts,
            Event.stderr (reportText rp)], .returned none⟩ : Run Cfg Def Rest)).trace =
          (rd ++ debugEvents w cfg ++ [Event.EnsureDefaults (assemble w.zeroOthers s) false]
            ++ ov ++ [Event.GenerateServer s2.Name s2.Models s2.Operations opts])
          ++ [Event.stderr (reportText rp)] := by
        simp [Run.after]
      rw [hassoc]
      exact List.getLast?_concat _

/-- An event that is not log output and not a call of `ReadConfig` does not come from the
loader or the debug block. -/
theorem mem_after_loader (s : Server) (w : World Cfg Def Rest)
    (rd l : List (Event Cfg Def Rest)) (cfg : Option Cfg) (hl : loaderOk s w rd cfg)
    (ev : Event Cfg Def Rest) (hm : ev ∈ rd ++ debugEvents w cfg ++ l)
    (h1 : ev.kind ≠ Kind.logPrintln) (h2 : ev.kind ≠ Kind.ReadConfig)
    (h3 : ev.kind ≠ Kind.Debug) : ev ∈ l := by
  simp only [List.mem_append] at hm
  rcases hm with (hm | hm) | hm
  · rcases loaderOk_kind s w rd cfg hl ev hm with h | h
    · exact absurd h h1
    · exact absurd h h2
  · rcases debugEvents_kind w cfg ev hm with h | h
    · exact absurd h h3
    · exact absurd h h1
  · exact hm

/-- A run that consists of the loader, the debug block and further events that are not calls
of `GenerateServer` contains no call of `GenerateServer`. -/
theorem no_generate_before (s : Server) (w : World Cfg Def Rest)
    (rd l : List (Event Cfg Def Rest)) (cfg : Option Cfg) (out : Outcome)
    (hl : loaderOk s w rd cfg) (hlk : ∀ ev ∈ l, ev.kind ≠ Kind.GenerateServer) :
    Kind.GenerateServer ∉ (⟨rd ++ debugEvents w cfg ++ l, out⟩ : Run Cfg Def Rest).kinds := by
  rw [mem_kinds]
  rintro ⟨ev, hm, hk⟩
  exact hlk ev (mem_after_loader s w rd l cfg hl ev hm (by simp [hk]) (by simp [hk])
    (by simp [hk])) hk

/-- Execution of the command: C4.  Each of the three collaborators called before the
generation aborts the command when it fails.  (1) With a non-empty `ConfigFile` whose path
is made absolute, an error of `ReadConfig` is what `Execute` returns, `ReadConfig` having
been called on that path.  (2) When `EnsureDefaults` is called and returns an error,
`Execute` returns that error.  (3) When `Unmarshal` is called on a config document and
returns an error, `Execute` returns that error.  In all three cases `GenerateServer` is
never called. -/
theorem collaborator_error_aborts (s : Server) (w : World Cfg Def Rest) :
    (∀ apt v e, s.ConfigFile ≠ "" → filepathAbs w.Getwd s.ConfigFile = (apt, none) →
      w.ReadConfig apt = (v, some e) →
      Event.ReadConfig apt ∈ (s.Execute w).trace ∧
      (s.Execute w).outcome = .returned (some e) ∧
      Kind.GenerateServer ∉ (s.Execute w).kinds) ∧
    (∀ o1 e, Kind.EnsureDefaults ∈ (s.Execute w).kinds →
      w.EnsureDefaults (assemble w.zeroOthers s) false = (o1, some e) →
      (s.Execute w).outcome = .returned (some e) ∧
      Kind.GenerateServer ∉ (s.Execute w).kinds) ∧
    (∀ c d e, Event.Unmarshal c ∈ (s.Execute w).trace →
      w.Unmarshal c = (d, some e) →
      (s.Execute w).outcome = .returned (some e) ∧
      Kind.GenerateServer ∉ (s.Execute w).kinds) := by
  refine ⟨?_, ?_, ?_⟩
  · intro apt v e hc hA hR
    simp [Server.Execute, hc, hA, hR, Run.after, Run.kinds, Event.kind]
  · intro o1 e hk hD
    rcases Execute_paths s w with ⟨x, e1, _, _, hE⟩ | ⟨apt, v, e1, _, _, _, hE⟩ |
      ⟨rd, cfg, o2, e1, hl, hD1, hE⟩ | ⟨rd, c, o2, d, e1, hl, hD1, hU, hE⟩ |
      ⟨rd, cfg, o2, s2, final, ov, hl, hD1, ho, hE⟩
    · simp [hE, Run.kinds, Event.kind] at hk
    · simp [hE, Run.kinds, Event.kind] at hk
    · rw [hD] at hD1
      obtain ⟨rfl, rfl⟩ : o1 = o2 ∧ e = e1 := by simpa using hD1
      rw [hE]
      exact ⟨rfl, no_generate_before s w rd _ cfg _ hl (by simp [Event.kind])⟩
    · rw [hD] at hD1
      simp at hD1
    · rw [hD] at hD1
      simp at hD1
  · intro c d e hm hU
    rcases Execute_paths s w with ⟨x, e1, _, _, hE⟩ | ⟨apt, v, e1, _, _, _, hE⟩ |
      ⟨rd, cfg, o2, e1, hl, hD1, hE⟩ | ⟨rd, c1, o2, d1, e1, hl, hD1, hU1, hE⟩ |
      ⟨rd, cfg, o2, s2, final, ov, hl, hD1, ho, hE⟩
    · simp [hE] at hm
    · simp [hE] at hm
    · rw [hE] at hm
      have := mem_after_loader s w rd _ cfg hl _ hm (by simp [Event.kind])
        (by simp [Event.kind]) (by simp [Event.kind])
      simp at this
    · rw [hE] at hm ⊢
      have := mem_after_loader s w rd _ (some c1) hl _ hm (by simp [Event.kind])
        (by simp [Event.kind]) (by simp [Event.kind])
      simp at this
      subst this
      rw [hU] at hU1
      obtain ⟨rfl, rfl⟩ : d = d1 ∧ e = e1 := by simpa using hU1
      exact ⟨rfl, no_generate_before s w rd _ (some c) _ hl (by simp [Event.kind])⟩
    · exfalso
      rw [hE] at hm
      simp only [Run.after, List.mem_append, List.mem_singleton] at hm
      rcases hm with (((hm | hm) | hm) | hm) | hm
      · rcases loaderOk_kind s w rd cfg hl _ hm with h | h <;> simp [Event.kind] at h
      · rcases debugEvents_kind w cfg _ hm with h | h <;> simp [Event.kind] at h
      · simp at hm
      · rcases ho with ⟨_, _, _, rfl⟩ | ⟨c2, d2, _, hU2, _, _, rfl⟩
        · simp at hm
        · simp at hm
          subst hm
          rw [hU] at hU2
          simp at hU2
      · rcases generate_mem s2 w final _ hm with h | h <;> simp [Event.kind] at h

/-- Every call of `EnsureDefaults` in a run is made on the assembled options, with
argument `false`. -/
theorem ensureDefaults_event (s : Server) (w : World Cfg Def Rest) (o : GenOpts Rest)
    (m : Bool) (h : Event.EnsureDefaults o m ∈ (s.Execute w).trace) :
    o = assemble w.zeroOthers s ∧ m = false := by
  rcases Execute_paths s w with ⟨x, e1, _, _, hE⟩ | ⟨apt, v, e1, _, _, _, hE⟩ |
    ⟨rd, cfg, o2, e1, hl, hD1, hE⟩ | ⟨rd, c1, o2, d1, e1, hl, hD1, hU1, hE⟩ |
    ⟨rd, cfg, o2, s2, final, ov, hl, hD1, ho, hE⟩
  · simp [hE] at h
  · simp [hE] at h
  · rw [hE] at h
    have := mem_after_loader s w rd _ cfg hl _ h (by simp [Event.kind])
      (by simp [Event.kind]) (by simp [Event.kind])
    simpa using this
  · rw [hE] at h
    have := mem_after_loader s w rd _ (some c1) hl _ h (by simp [Event.kind])
      (by simp [Event.kind]) (by simp [Event.kind])
    simpa using this
  · rw [hE] at h
    simp only [Run.after, List.append_assoc] at h
    rw [← List.append_assoc] at h
    have := mem_after_loader s w rd _ cfg hl _ h (by simp [Event.kind])
      (by simp [Event.kind]) (by simp [Event.kind])
    simp only [List.mem_append, List.mem_singleton] at this
    rcases this with hm | hm | hm
    · simp at hm
      exact hm
    · rcases overlayOk_kind w cfg _ _ o2 final ov ho _ hm with h1 | h1 <;> simp [Event.kind] at h1
    · rcases generate_mem s2 w final _ hm with h1 | h1 <;> simp [Event.kind] at h1

/-- Options assembly: C1.  For every value of the flags, hence for each of the 32
combinations of `SkipModels`, `SkipOperations`, `SkipSupport`, `ExcludeMain` and
`ExcludeSpec`, the assembled options have `IncludeModel = IncludeValidator = !SkipModels`,
`IncludeHandler = IncludeParameters = IncludeResponses = !SkipOperations`,
`IncludeSupport = !SkipSupport`, `IncludeMain = !ExcludeMain` and `ExcludeSpec` equal to the
flag `ExcludeSpec`, each field being a function of its own flag alone; and the options on
which `Execute` calls `EnsureDefaults` are the assembled options. -/
theorem assemble_inverts_skip_flags (s : Server) (w : World Cfg Def Rest) :
    (assemble w.zeroOthers s).IncludeModel = (!s.SkipModels) ∧
    (assemble w.zeroOthers s).IncludeValidator = (!s.SkipModels) ∧
    (assemble w.zeroOthers s).IncludeHandler = (!s.SkipOperations) ∧
    (assemble w.zeroOthers s).IncludeParameters = (!s.SkipOperations) ∧
    (assemble w.zeroOthers s).IncludeResponses = (!s.SkipOperations) ∧
    (assemble w.zeroOthers s).IncludeSupport = (!s.SkipSupport) ∧
    (assemble w.zeroOthers s).IncludeMain = (!s.ExcludeMain) ∧
    (assemble w.zeroOthers s).ExcludeSpec = s.ExcludeSpec ∧
    (∀ o m, Event.EnsureDefaults o m ∈ (s.Execute w).trace →
      o.IncludeModel = (!s.SkipModels) ∧ o.IncludeValidator = (!s.SkipModels) ∧
      o.IncludeHandler = (!s.SkipOperations) ∧ o.IncludeParameters = (!s.SkipOperations) ∧
      o.IncludeResponses = (!s.SkipOperations) ∧ o.IncludeSupport = (!s.SkipSupport) ∧
      o.IncludeMain = (!s.ExcludeMain) ∧ o.ExcludeSpec = s.ExcludeSpec) := by
  refine ⟨rfl, rfl, rfl, rfl, rfl, rfl, rfl, rfl, ?_⟩
  intro o m h
  obtain ⟨rfl, _⟩ := ensureDefaults_event s w o m h
  exact ⟨rfl, rfl, rfl, rfl, rfl, rfl, rfl, rfl⟩

/-- Options assembly: C2.  For every value of the flags the assembled options copy the
fields that are not inverted: `Spec`, `APIPackage`, `ModelPackage`, `ServerPackage`,
`ClientPackage`, `Target`, `Principal`, `DefaultScheme`, `TemplateDir`, `Models`,
`Operations`, `Tags`, `Name`, `WithContext` and `DumpData` equal the flags of the same name,
lists included as they are.  Assembly is a function of the flags alone, with a value for
every flag value: the options on which `Execute` calls `EnsureDefaults` are this value, and
the call is reached in every run in which the config loader completes. -/
theorem assemble_copies_fields (s : Server) (w : World Cfg Def Rest) :
    (assemble w.zeroOthers s).Spec = s.Spec ∧
    (assemble w.zeroOthers s).APIPackage = s.APIPackage ∧
    (assemble w.zeroOthers s).ModelPackage = s.ModelPackage ∧
    (assemble w.zeroOthers s).ServerPackage = s.ServerPackage ∧
    (assemble w.zeroOthers s).ClientPackage = s.ClientPackage ∧
    (assemble w.zeroOthers s).Target = s.Target ∧
    (assemble w.zeroOthers s).Principal = s.Principal ∧
    (assemble w.zeroOthers s).DefaultScheme = s.DefaultScheme ∧
    (assemble w.zeroOthers s).TemplateDir = s.TemplateDir ∧
    (assemble w.zeroOthers s).Models = s.Models ∧
    (assemble w.zeroOthers s).Operations = s.Operations ∧
    (assemble w.zeroOthers s).Tags = s.Tags ∧
    (assemble w.zeroOthers s).Name = s.Name ∧
    (assemble w.zeroOthers s).WithContext = s.WithContext ∧
    (assemble w.zeroOthers s).DumpData = s.DumpData ∧
    (∀ o m, Event.EnsureDefaults o m ∈ (s.Execute w).trace →
      o = assemble w.zeroOthers s) ∧
    (∀ rd cfg, loaderOk s w rd cfg →
      Event.EnsureDefaults (assemble w.zeroOthers s) false ∈ (s.Execute w).trace) := by
  refine ⟨rfl, rfl, rfl, rfl, rfl, rfl, rfl, rfl, rfl, rfl, rfl, rfl, rfl, rfl, rfl, ?_, ?_⟩
  · intro o m h
    exact (ensureDefaults_event s w o m h).1
  · intro rd cfg hl
    rcases hl with ⟨hc, _, _⟩ | ⟨apt, hc, hA, hR, _⟩
    · simp [Server.Execute, Server.configure, Run.after, hc]
    · simp [Server.Execute, Server.configure, Run.after, hc, hA, hR]

/-- Element writes keep the length of a slice. -/
theorem writeThrough_length (old new : List String) :
    (writeThrough old new).length = old.length := by
  simp only [writeThrough, List.length_append, List.length_take, List.length_drop]
  omega

/-- Writing to a slice the elements it already holds changes nothing. -/
theorem writeThrough_self (l : List String) : writeThrough l l = l := by
  simp [writeThrough]

/-- The flags keep every field but the elements of their slices, and the lengths of these. -/
theorem written_fields (s : Server) (a : FlagArrays) :
    (s.written a).Name = s.Name ∧ (s.written a).ConfigFile = s.ConfigFile ∧
    (s.written a).Models.length = s.Models.length ∧
    (s.written a).Operations.length = s.Operations.length :=
  ⟨rfl, rfl, writeThrough_length _ _, writeThrough_length _ _⟩

/-- The collaborator calls of a run in which the loader, the defaults and the overlay
complete, for every behaviour of the collaborators: `s2` are the flags as the calls of
`EnsureDefaults` and `ConfigureOpts` left them. -/
theorem Execute_calls (s : Server) (w : World Cfg Def Rest)
    (rd ov : List (Event Cfg Def Rest)) (cfg : Option Cfg) (o1 final : GenOpts Rest)
    (s2 : Server) (hl : loaderOk s w rd cfg)
    (hD : w.EnsureDefaults (assemble w.zeroOthers s) false = (o1, none))
    (ho : overlayOk w cfg (s.afterDefaults w) o1 s2 final ov) :
    (s.Execute w).calls =
      rd.filter Event.isCall ++ [Event.EnsureDefaults (assemble w.zeroOthers s) false] ++ ov
        ++ [Event.GenerateServer s.Name s2.Models s2.Operations final] ∧
    (s.Execute w).kinds.count Kind.GenerateServer = 1 ∧
    s2.Models.length = s.Models.length ∧ s2.Operations.length = s.Operations.length := by
  have hname : s2.Name = s.Name ∧ s2.Models.length = s.Models.length ∧
      s2.Operations.length = s.Operations.length := by
    rcases ho with ⟨_, _, rfl, _⟩ | ⟨c2, d2, _, _, _, rfl, _⟩
    · exact ⟨rfl, writeThrough_length _ _, writeThrough_length _ _⟩
    · refine ⟨rfl, ?_, ?_⟩
      · exact (writeThrough_length _ _).trans (writeThrough_length _ _)
      · exact (writeThrough_length _ _).trans (writeThrough_length _ _)
  refine ⟨?_, ?_, hname.2.1, hname.2.2⟩
  · rw [Execute_generates s w rd ov cfg o1 final s2 hl hD ho, ← hname.1]
    rcases debugEvents_cases w cfg with hd | ⟨c, hn, hd⟩ | ⟨hn, hd⟩ <;>
    rcases generate_cases s2 w final with ⟨o3, e3, hG, hg⟩ | ⟨o3, x, e3, hG, hr, hg⟩ |
      ⟨o3, rp, hG, hr, hg⟩ <;>
    rcases hl with ⟨_, rfl, hn1⟩ | ⟨apt, _, _, _, rfl⟩ <;>
    rcases ho with ⟨hn2, _, _, rfl⟩ | ⟨c2, d2, hn2, hU, _, _, rfl⟩ <;>
    simp [hd, hg, Run.calls, Run.after, Event.isCall, Event.kind, List.filter]
  · rw [Execute_generates s w rd ov cfg o1 final s2 hl hD ho]
    rcases debugEvents_cases w cfg with hd | ⟨c, hn, hd⟩ | ⟨hn, hd⟩ <;>
    rcases generate_cases s2 w final with ⟨o3, e3, hG, hg⟩ | ⟨o3, x, e3, hG, hr, hg⟩ |
      ⟨o3, rp, hG, hr, hg⟩ <;>
    rcases hl with ⟨_, rfl, hn1⟩ | ⟨apt, _, _, _, rfl⟩ <;>
    rcases ho with ⟨hn2, _, _, rfl⟩ | ⟨c2, d2, hn2, hU, _, _, rfl⟩ <;>
    simp [hd, hg, Run.after, Run.kinds, Event.kind]

/-- Order of the collaborator calls: C9.  When the config loader, `EnsureDefaults` and the
overlay decoding complete, the collaborator calls of the run are, in this order: the call of
`ReadConfig` if a config file was requested, `EnsureDefaults(false)` on the assembled
options, `Unmarshal` and `ConfigureOpts` if a config document was loaded, and one call of
`GenerateServer` on the options these steps left, whose other arguments are the fields
`Name`, `Models` and `Operations` of the flags, not fields of the options.  This holds for
every behaviour of the collaborators; the two slices have the length the user supplied, and
they hold the elements the user supplied when `EnsureDefaults` and `ConfigureOpts` leave the
flags alone, as the spec has it.  For the flags `--skip-models` and nothing else, when the
defaults resolver leaves the include fields alone, as the spec has it, the options
delivered to `GenerateServer` have `IncludeModel = IncludeValidator = false` and
`IncludeHandler = IncludeParameters = IncludeResponses = true`. -/
theorem generateServer_called_once_after_overlay (s : Server) (w : World Cfg Def Rest) :
    (∀ rd ov cfg o1 s2 final, loaderOk s w rd cfg →
      w.EnsureDefaults (assemble w.zeroOthers s) false = (o1, none) →
      overlayOk w cfg (s.afterDefaults w) o1 s2 final ov →
      (s.Execute w).calls =
        rd.filter Event.isCall ++ [Event.EnsureDefaults (assemble w.zeroOthers s) false] ++ ov
          ++ [Event.GenerateServer s.Name s2.Models s2.Operations final] ∧
      (s.Execute w).kinds.count Kind.GenerateServer = 1 ∧
      s2.Models.length = s.Models.length ∧ s2.Operations.length = s.Operations.length) ∧
    (w.leavesFlags → ∀ rd ov cfg o1 s2 final, loaderOk s w rd cfg →
      w.EnsureDefaults (assemble w.zeroOthers s) false = (o1, none) →
      overlayOk w cfg (s.afterDefaults w) o1 s2 final ov →
      (s.Execute w).calls =
        rd.filter Event.isCall ++ [Event.EnsureDefaults (assemble w.zeroOthers s) false] ++ ov
          ++ [Event.GenerateServer s.Name s.Models s.Operations final] ∧
      (s.Execute w).kinds.count Kind.GenerateServer = 1) ∧
    (w.defaultsKeepIncludes → ∀ o1,
      w.EnsureDefaults (assemble w.zeroOthers Server.skipModels) false = (o1, none) →
      (Server.skipModels.Execute w).calls =
        [Event.EnsureDefaults (assemble w.zeroOthers Server.skipModels) false,
          Event.GenerateServer "" [] [] o1] ∧
      (Server.skipModels.Execute w).kinds.count Kind.GenerateServer = 1 ∧
      o1.IncludeModel = false ∧ o1.IncludeValidator = false ∧ o1.IncludeHandler = true ∧
      o1.IncludeParameters = true ∧ o1.IncludeResponses = true) := by
  refine ⟨?_, ?_, ?_⟩
  · intro rd ov cfg o1 s2 final hl hD ho
    exact Execute_calls s w rd ov cfg o1 final s2 hl hD ho
  · intro hflags rd ov cfg o1 s2 final hl hD ho
    have h := Execute_calls s w rd ov cfg o1 final s2 hl hD ho
    have h1 : s.afterDefaults w = s := hflags.1 s _ _
    have h2 : s2 = s := by
      rcases ho with ⟨_, _, rfl, _⟩ | ⟨c2, d2, _, _, _, rfl, _⟩
      · exact h1
      · rw [h1]
        exact hflags.2 s _ _
    rw [h2] at h
    exact ⟨h.1, h.2.1⟩
  · intro hdef o1 hD
    have h := Execute_calls Server.skipModels w [] [] none o1 o1
      (Server.skipModels.afterDefaults w) (Or.inl ⟨rfl, rfl, rfl⟩) hD
      (Or.inl ⟨rfl, rfl, rfl, rfl⟩)
    have hm : (Server.skipModels.afterDefaults w).Models = [] :=
      List.length_eq_zero.mp h.2.2.1
    have ho : (Server.skipModels.afterDefaults w).Operations = [] :=
      List.length_eq_zero.mp h.2.2.2
    have hs := hdef (assemble w.zeroOthers Server.skipModels) false
    rw [hD] at hs
    obtain ⟨a1, a2, a3, a4, a5, _, _⟩ := hs
    refine ⟨?_, h.2.1, a1, a2, a3, a4, a5⟩
    have h1 := h.1
    rw [hm, ho] at h1
    simpa using h1

/-- A dump of the config document in the debug block happens only when one of the two
variables is set and a config document was loaded. -/
theorem debugEvents_dump (w : World Cfg Def Rest) (cfg : Option Cfg) (c : Cfg)
    (h : Event.Debug c ∈ debugEvents w cfg) :
    (w.DEBUG ≠ "" ∨ w.SWAGGER_DEBUG ≠ "") ∧ cfg = some c := by
  unfold debugEvents at h
  split at h
  · next ht =>
    cases cfg with
    | none => simp at h
    | some c1 =>
      simp at h
      subst h
      exact ⟨by simpa using ht, rfl⟩
  · simp at h

/-- The debug block contributes only log output. -/
theorem debugEvents_filter (w : World Cfg Def Rest) (cfg : Option Cfg) :
    (debugEvents w cfg).filter Event.isCall = [] ∧
    (debugEvents w cfg).filter (fun ev => !ev.isLog) = [] := by
  rcases debugEvents_cases w cfg with hd | ⟨c, _, hd⟩ | ⟨_, hd⟩ <;>
    simp [hd, Event.isCall, Event.isLog, Event.kind]

/-- The run of the command for every setting of the two debug variables at once: either the
run does not depend on them at all, or it consists of fixed events `rd`, the debug block,
and a fixed remainder. -/
theorem Execute_withDebug (s : Server) (w : World Cfg Def Rest) :
    (∃ r, ∀ d sd, s.Execute (w.withDebug d sd) = r) ∨
    (∃ rd cfg X, ∀ d sd, s.Execute (w.withDebug d sd) =
      Run.after (rd ++ debugEvents (w.withDebug d sd) cfg) X) := by
  by_cases hc : s.ConfigFile = ""
  · refine Or.inr ⟨[], none, Run.after [Event.EnsureDefaults (assemble w.zeroOthers s) false]
      (match w.EnsureDefaults (assemble w.zeroOthers s) false with
      | (_, some err) => ⟨[], .returned (some err)⟩
      | (opts1, none) => (s.afterDefaults w).overlay w none opts1), ?_⟩
    intro d sd
    simp [Server.Execute, hc, Server.configure, Run.after, World.withDebug, Server.overlay,
      Server.generate, Server.afterDefaults, Server.afterOverlay]
  · rcases hA : filepathAbs w.Getwd s.ConfigFile with ⟨apt, _ | e⟩
    · rcases hR : w.ReadConfig apt with ⟨v, _ | e⟩
      · refine Or.inr ⟨[Event.logPrintln ["trying to read config from", apt],
          Event.ReadConfig apt], v,
          Run.after [Event.EnsureDefaults (assemble w.zeroOthers s) false]
          (match w.EnsureDefaults (assemble w.zeroOthers s) false with
          | (_, some err) => ⟨[], .returned (some err)⟩
          | (opts1, none) => (s.afterDefaults w).overlay w v opts1), ?_⟩
        intro d sd
        simp [Server.Execute, hc, Server.configure, Run.after, World.withDebug, Server.overlay,
          Server.generate, Server.afterDefaults, Server.afterOverlay, hA, hR]
      · refine Or.inl ⟨⟨[Event.logPrintln ["trying to read config from", apt],
          Event.ReadConfig apt], .returned (some e)⟩, ?_⟩
        intro d sd
        simp [Server.Execute, hc, Run.after, World.withDebug, hA, hR]
    · refine Or.inl ⟨⟨[Event.logFatalln e], .exited 1⟩, ?_⟩
      intro d sd
      simp [Server.Execute, hc, World.withDebug, hA]

/-- A dump of the config document in a run was made by the debug block, and then a config
document had been loaded by `ReadConfig`. -/
theorem dump_needs_toggle_and_config (s : Server) (w : World Cfg Def Rest)
    (rd l : List (Event Cfg Def Rest)) (cfg : Option Cfg) (out : Outcome) (c : Cfg)
    (hl : loaderOk s w rd cfg) (hlk : ∀ ev ∈ l, ev.kind ≠ Kind.Debug)
    (hE : s.Execute w = ⟨rd ++ debugEvents w cfg ++ l, out⟩)
    (hm : Event.Debug c ∈ (s.Execute w).trace) :
    (w.DEBUG ≠ "" ∨ w.SWAGGER_DEBUG ≠ "") ∧
    ∃ apt, Event.ReadConfig apt ∈ (s.Execute w).trace ∧ w.ReadConfig apt = (some c, none) := by
  rw [hE] at hm ⊢
  simp only [List.mem_append] at hm
  rcases hm with (hm | hm) | hm
  · rcases loaderOk_kind s w rd cfg hl _ hm with h | h <;> simp [Event.kind] at h
  · obtain ⟨ht, rfl⟩ := debugEvents_dump w cfg c hm
    refine ⟨ht, ?_⟩
    rcases hl with ⟨_, _, hn⟩ | ⟨apt, _, _, hR, rfl⟩
    · simp at hn
    · exact ⟨apt, by simp, hR⟩
  · exact absurd rfl (hlk _ hm)

/-- The debug toggle: C10.  Two runs on the same flags in worlds that differ only in the values
of `DEBUG` and `SWAGGER_DEBUG` end the same way, make the same collaborator calls with the
same arguments in the same order (so `GenerateServer` receives the same options), and have
the same events once log output is removed.  A dump of the config document occurs only in a
run where one of the two variables is non-empty and `ReadConfig` was called and returned
that document without error. -/
theorem debug_toggle_only_logs (s : Server) (w : World Cfg Def Rest)
    (d1 sd1 d2 sd2 : String) :
    (s.Execute (w.withDebug d1 sd1)).outcome = (s.Execute (w.withDebug d2 sd2)).outcome ∧
    (s.Execute (w.withDebug d1 sd1)).calls = (s.Execute (w.withDebug d2 sd2)).calls ∧
    (s.Execute (w.withDebug d1 sd1)).trace.filter (fun ev => !ev.isLog) =
      (s.Execute (w.withDebug d2 sd2)).trace.filter (fun ev => !ev.isLog) ∧
    (∀ c, Event.Debug c ∈ (s.Execute (w.withDebug d1 sd1)).trace →
      (d1 ≠ "" ∨ sd1 ≠ "") ∧
      ∃ apt, Event.ReadConfig apt ∈ (s.Execute (w.withDebug d1 sd1)).trace ∧
        w.ReadConfig apt = (some c, none)) := by
  refine ⟨?_, ?_, ?_, ?_⟩
  · rcases Execute_withDebug s w with ⟨r, h⟩ | ⟨rd, cfg, X, h⟩
    · rw [h, h]
    · rw [h, h]
      rfl
  · rcases Execute_withDebug s w with ⟨r, h⟩ | ⟨rd, cfg, X, h⟩
    · rw [h, h]
    · rw [h, h]
      simp [Run.calls, Run.after, (debugEvents_filter _ cfg).1]
  · rcases Execute_withDebug s w with ⟨r, h⟩ | ⟨rd, cfg, X, h⟩
    · rw [h, h]
    · rw [h, h]
      simp [Run.after, (debugEvents_filter _ cfg).2]
  · intro c hm
    have key : ∀ w1 : World Cfg Def Rest, Event.Debug c ∈ (s.Execute w1).trace →
        (w1.DEBUG ≠ "" ∨ w1.SWAGGER_DEBUG ≠ "") ∧
        ∃ apt, Event.ReadConfig apt ∈ (s.Execute w1).trace ∧
          w1.ReadConfig apt = (some c, none) := by
      intro w1 hm
      rcases Execute_paths s w1 with ⟨x, e1, _, _, hE⟩ | ⟨apt, v, e1, _, _, _, hE⟩ |
        ⟨rd, cfg, o2, e1, hl, hD1, hE⟩ | ⟨rd, c1, o2, d3, e1, hl, hD1, hU1, hE⟩ |
        ⟨rd, cfg, o2, s2, final, ov, hl, hD1, ho, hE⟩
      · simp [hE] at hm
      · simp [hE] at hm
      · exact dump_needs_toggle_and_config s w1 rd _ cfg _ c hl (by simp [Event.kind]) hE hm
      · exact dump_needs_toggle_and_config s w1 rd _ (some c1) _ c hl (by simp [Event.kind])
          hE hm
      · refine dump_needs_toggle_and_config s w1 rd
          ([Event.EnsureDefaults (assemble w1.zeroOthers s) false] ++ ov
            ++ (s2.generate w1 final).trace) cfg (s2.generate w1 final).outcome c hl ?_
          (by rw [hE]; simp [Run.after]) hm
        intro ev hev hk
        simp only [List.mem_append, List.mem_singleton] at hev
        rcases hev with (hev | hev) | hev
        · simp [hev, Event.kind] at hk
        · rcases overlayOk_kind w1 cfg _ _ o2 final ov ho ev hev with h | h <;> simp [h] at hk
        · rcases generate_mem s2 w1 final ev hev with h | h
          · simp [h, Event.kind] at hk
          · simp [h] at hk
    exact key (w.withDebug d1 sd1) hm

/-- When `GenerateServer` returns nil and leaves an absolute target in the options, the
generation phase ends with an error and without a report. -/
theorem generate_absolute_target (s : Server) (w : World Cfg Def Rest) (opts o2 : GenOpts Rest)
    (h : w.GenerateServer s.Name s.Models s.Operations opts = (o2, none))
    (habs : filepathIsAbs o2.Target = true) :
    ∃ e, s.generate w opts =
      ⟨[Event.GenerateServer s.Name s.Models s.Operations opts], .returned (some e)⟩ := by
  have h1 := (filepathRelDot_error_iff o2.Target).mpr habs
  rcases hr : filepathRelDot o2.Target with ⟨x, _ | e⟩
  · rw [hr] at h1
    simp at h1
  · exact ⟨e, generate_relFailed s w opts o2 x e h hr⟩

/-! ### The claims at concrete inputs -/

/-- Witness for C1: the flags `--skip-models` in the plain world. -/
theorem assemble_inverts_skip_flags_witness :
    Event.EnsureDefaults (assemble () Server.skipModels) false
      ∈ (Server.skipModels.Execute World.plain).trace ∧
    (assemble () Server.skipModels).IncludeModel = (!Server.skipModels.SkipModels) ∧
    (assemble () Server.skipModels).IncludeValidator = (!Server.skipModels.SkipModels) ∧
    (assemble () Server.skipModels).IncludeHandler = (!Server.skipModels.SkipOperations) ∧
    (assemble () Server.skipModels).IncludeParameters = (!Server.skipModels.SkipOperations) ∧
    (assemble () Server.skipModels).IncludeResponses = (!Server.skipModels.SkipOperations) ∧
    (assemble () Server.skipModels).IncludeSupport = (!Server.skipModels.SkipSupport) ∧
    (assemble () Server.skipModels).IncludeMain = (!Server.skipModels.ExcludeMain) ∧
    (assemble () Server.skipModels).ExcludeSpec = Server.skipModels.ExcludeSpec :=
  ⟨by decide,
    (assemble_inverts_skip_flags Server.skipModels World.plain).2.2.2.2.2.2.2.2
      (assemble () Server.skipModels) false (by decide)⟩

/-- Witness for C2: the flags `--config-file cfg.yml` in the plain world. -/
theorem assemble_copies_fields_witness :
    loaderOk Server.withConfig World.plain
      [Event.logPrintln ["trying to read config from", "/abs/proj/cfg.yml"],
        Event.ReadConfig "/abs/proj/cfg.yml"] (some "/abs/proj/cfg.yml") ∧
    Event.EnsureDefaults (assemble () Server.withConfig) false
      ∈ (Server.withConfig.Execute World.plain).trace :=
  ⟨Or.inr ⟨"/abs/proj/cfg.yml", by decide, by decide, rfl, rfl⟩,
    (assemble_copies_fields Server.withConfig World.plain).2.2.2.2.2.2.2.2.2.2.2.2.2.2.2.2 _ _
      (Or.inr ⟨"/abs/proj/cfg.yml", by decide, by decide, rfl, rfl⟩)⟩

/-- Witness for C3: the default flags in the plain world. -/
theorem empty_configFile_skips_overlay_witness :
    Server.defaults.ConfigFile = "" ∧
    Kind.ReadConfig ∉ (Server.defaults.Execute World.plain).kinds ∧
    Kind.Unmarshal ∉ (Server.defaults.Execute World.plain).kinds ∧
    Kind.ConfigureOpts ∉ (Server.defaults.Execute World.plain).kinds ∧
    Event.GenerateServer "" [] [] (assemble () Server.defaults)
      ∈ (Server.defaults.Execute World.plain).trace :=
  have h := empty_configFile_skips_overlay Server.defaults World.plain (by decide)
  ⟨by decide, h.1, h.2.1, h.2.2.1, h.2.2.2.2 (assemble () Server.defaults) rfl⟩

/-- Witness for C4: an absent config file, a failing `EnsureDefaults`, and a config document
that cannot be decoded. -/
theorem collaborator_error_aborts_witness :
    (Server.withConfig.ConfigFile ≠ "" ∧
      filepathAbs World.missingConfig.Getwd Server.withConfig.ConfigFile
        = ("/abs/proj/cfg.yml", none) ∧
      World.missingConfig.ReadConfig "/abs/proj/cfg.yml"
        = (none, some ⟨"open: no such file or directory"⟩) ∧
      (Server.withConfig.Execute World.missingConfig).outcome
        = .returned (some ⟨"open: no such file or directory"⟩) ∧
      Kind.GenerateServer ∉ (Server.withConfig.Execute World.missingConfig).kinds) ∧
    (Kind.EnsureDefaults ∈ (Server.defaults.Execute World.badDefaults).kinds ∧
      (Server.defaults.Execute World.badDefaults).outcome
        = .returned (some ⟨"cannot derive a default"⟩) ∧
      Kind.GenerateServer ∉ (Server.defaults.Execute World.badDefaults).kinds) ∧
    (Event.Unmarshal "/abs/proj/cfg.yml" ∈ (Server.withConfig.Execute World.badOverlay).trace ∧
      (Server.withConfig.Execute World.badOverlay).outcome
        = .returned (some ⟨"cannot decode the overlay"⟩) ∧
      Kind.GenerateServer ∉ (Server.withConfig.Execute World.badOverlay).kinds) :=
  have h1 := (collaborator_error_aborts Server.withConfig World.missingConfig).1
    "/abs/proj/cfg.yml" none ⟨"open: no such file or directory"⟩ (by decide) (by decide) rfl
  have h2 := (collaborator_error_aborts Server.defaults World.badDefaults).2.1
    (assemble () Server.defaults) ⟨"cannot derive a default"⟩ (by decide) rfl
  have h3 := (collaborator_error_aborts Server.withConfig World.badOverlay).2.2
    "/abs/proj/cfg.yml" "" ⟨"cannot decode the overlay"⟩ (by decide) rfl
  ⟨⟨by decide, by decide, rfl, h1.2.1, h1.2.2⟩, ⟨by decide, h2.1, h2.2⟩, ⟨by decide, h3.1, h3.2⟩⟩

/-- Witness for C5: the default flags with a failing `GenerateServer`. -/
theorem generateServer_error_returned_witness :
    Event.GenerateServer "" [] [] (assemble () Server.defaults)
      ∈ (Server.defaults.Execute World.failingEngine).trace ∧
    World.failingEngine.GenerateServer "" [] [] (assemble () Server.defaults)
      = (assemble () Server.defaults, some ⟨"generation failed"⟩) ∧
    (Server.defaults.Execute World.failingEngine).outcome
      = .returned (some ⟨"generation failed"⟩) ∧
    (Server.defaults.Execute World.failingEngine).trace.getLast?
      = some (Event.GenerateServer "" [] [] (assemble () Server.defaults)) ∧
    Kind.stderr ∉ (Server.defaults.Execute World.failingEngine).kinds :=
  ⟨by decide, rfl,
    generateServer_error_returned Server.defaults World.failingEngine "" [] []
      (assemble () Server.defaults) (assemble () Server.defaults) ⟨"generation failed"⟩
      (by decide) rfl⟩

/-- Execution of the command: C6 fails as stated.  With the flags `--target /tmp/server` in
the plain world, `GenerateServer` is called and returns nil, yet `Execute` does not return
nil and writes no report. -/
theorem generation_succeeds_without_report :
    Event.GenerateServer "" [] [] (assemble () Server.tmpTarget)
      ∈ (Server.tmpTarget.Execute World.plain).trace ∧
    (World.plain.GenerateServer "" [] [] (assemble () Server.tmpTarget)).2 = none ∧
    (Server.tmpTarget.Execute World.plain).outcome ≠ .returned none ∧
    Kind.stderr ∉ (Server.tmpTarget.Execute World.plain).kinds := by
  decide

/-- Witness for C6 as amended: the flags `--target gen` in the plain world. -/
theorem generateServer_outcomes_witness :
    Event.GenerateServer "" [] [] (assemble () Server.relTarget)
      ∈ (Server.relTarget.Execute World.plain).trace ∧
    World.plain.GenerateServer "" [] [] (assemble () Server.relTarget)
      = (assemble () Server.relTarget, none) ∧
    filepathIsAbs (assemble () Server.relTarget).Target = false ∧
    (Server.relTarget.Execute World.plain).outcome = .returned none ∧
    (Server.relTarget.Execute World.plain).trace.getLast?
      = some (Event.stderr (reportText (filepathRelDot (assemble () Server.relTarget).Target).1)) :=
  ⟨by decide, rfl, by decide,
    (generateServer_outcomes Server.relTarget World.plain "" [] []
      (assemble () Server.relTarget) (by decide)).2 (assemble () Server.relTarget) rfl
      (by decide)⟩

/-- Precedence of the overlay: C7 at the input where the code departs from it.  With the
flags `--skip-operations --config-file overlay.yml` the assembled options have
`IncludeHandler = false`; the overlay is applied after that (line 115) and the options it
leaves are passed to `GenerateServer` (line 118) with no further look at the flags, so with
an overlay that sets `IncludeHandler` the one call of `GenerateServer` receives
`IncludeHandler = true` and the run succeeds.  With an overlay that changes nothing the
same flags deliver `IncludeHandler = false`. -/
theorem overlay_reenables_handlers :
    Server.skipOperationsWithConfig.SkipOperations = true ∧
    (assemble () Server.skipOperationsWithConfig).IncludeHandler = false ∧
    (Server.skipOperationsWithConfig.Execute World.enablingOverlay).calls =
      [Event.ReadConfig "/abs/proj/overlay.yml",
        Event.EnsureDefaults (assemble () Server.skipOperationsWithConfig) false,
        Event.Unmarshal "/abs/proj/overlay.yml",
        Event.ConfigureOpts "/abs/proj/overlay.yml"
          (assemble () Server.skipOperationsWithConfig),
        Event.GenerateServer "" [] []
          { assemble () Server.skipOperationsWithConfig with IncludeHandler := true }] ∧
    (Server.skipOperationsWithConfig.Execute World.enablingOverlay).outcome
      = .returned none ∧
    Event.GenerateServer "" [] [] (assemble () Server.skipOperationsWithConfig)
      ∈ (Server.skipOperationsWithConfig.Execute World.plain).trace := by
  decide

/-- Reported path: C8 at its own example.  In the working directory `/abs/proj`, with the
flags `--target /abs/proj/gen` and collaborators that succeed and leave the target as it
is, `GenerateServer` is called and returns nil, `filepath.Rel(".", "/abs/proj/gen")`
returns an error, `Execute` returns that error and writes no report.  With `--target gen`
instead, the run ends with the report for the path `gen` and `Execute` returns nil. -/
theorem absolute_target_not_reported :
    World.plain.Getwd = ("/abs/proj", none) ∧
    (assemble () Server.absTarget).Target = "/abs/proj/gen" ∧
    (Server.absTarget.Execute World.plain).calls =
      [Event.EnsureDefaults (assemble () Server.absTarget) false,
        Event.GenerateServer "" [] [] (assemble () Server.absTarget)] ∧
    World.plain.GenerateServer "" [] [] (assemble () Server.absTarget)
      = (assemble () Server.absTarget, none) ∧
    (filepathRelDot "/abs/proj/gen").2 ≠ none ∧
    (Server.absTarget.Execute World.plain).outcome
      = .returned (filepathRelDot "/abs/proj/gen").2 ∧
    Kind.stderr ∉ (Server.absTarget.Execute World.plain).kinds ∧
    (Server.relTarget.Execute World.plain).trace.getLast?
      = some (Event.stderr (reportText "gen")) ∧
    (Server.relTarget.Execute World.plain).outcome = .returned none := by
  refine ⟨by decide, by decide, by decide, by decide, by decide, by decide, by decide, ?_,
    by decide⟩
  rfl

/-- Witness for C9: the flags `--config-file cfg.yml --model Pet --operation getPet
--skip-models`, and the flags `--skip-models`, with a defaults resolver that derives the
application name and an overlay that sets the template directory. -/
theorem generateServer_called_once_after_overlay_witness :
    World.namingEngine.leavesFlags ∧ World.namingEngine.defaultsKeepIncludes ∧
    loaderOk Server.petWithConfig World.namingEngine
      [Event.logPrintln ["trying to read config from", "/abs/proj/cfg.yml"],
        Event.ReadConfig "/abs/proj/cfg.yml"] (some "/abs/proj/cfg.yml") ∧
    (Server.petWithConfig.Execute World.namingEngine).calls =
      [Event.ReadConfig "/abs/proj/cfg.yml",
        Event.EnsureDefaults (assemble () Server.petWithConfig) false,
        Event.Unmarshal "/abs/proj/cfg.yml",
        Event.ConfigureOpts "/abs/proj/cfg.yml"
          { assemble () Server.petWithConfig with Name := "petstore" },
        Event.GenerateServer "" ["Pet"] ["getPet"]
          { assemble () Server.petWithConfig with
            Name := "petstore", TemplateDir := "/abs/proj/cfg.yml" }] ∧
    (Server.petWithConfig.Execute World.namingEngine).kinds.count Kind.GenerateServer = 1 ∧
    (Server.skipModels.Execute World.namingEngine).calls =
      [Event.EnsureDefaults (assemble () Server.skipModels) false,
        Event.GenerateServer "" [] []
          { assemble () Server.skipModels with Name := "petstore" }] ∧
    ({ assemble () Server.skipModels with Name := "petstore" } : GenOpts Unit).IncludeModel
      = false ∧
    ({ assemble () Server.skipModels with Name := "petstore" } : GenOpts Unit).IncludeHandler
      = true :=
  have hflags : World.namingEngine.leavesFlags :=
    ⟨fun s _ _ => by
        show s.written s.flagArrays = s
        simp [Server.written, Server.flagArrays, writeThrough_self],
      fun s _ _ => by
        show s.written s.flagArrays = s
        simp [Server.written, Server.flagArrays, writeThrough_self]⟩
  have hdef : World.namingEngine.defaultsKeepIncludes := fun o _ => by
    show sameIncludes (if o.Name = "" then { o with Name := "petstore" } else o) o
    split <;> exact ⟨rfl, rfl, rfl, rfl, rfl, rfl, rfl⟩
  have hl : loaderOk Server.petWithConfig World.namingEngine
      [Event.logPrintln ["trying to read config from", "/abs/proj/cfg.yml"],
        Event.ReadConfig "/abs/proj/cfg.yml"] (some "/abs/proj/cfg.yml") :=
    Or.inr ⟨"/abs/proj/cfg.yml", by decide, by decide, rfl, rfl⟩
  have h1 := (generateServer_called_once_after_overlay Server.petWithConfig
    World.namingEngine).2.1 hflags _ _ _
    { assemble () Server.petWithConfig with Name := "petstore" } _ _ hl rfl
    (Or.inr ⟨"/abs/proj/cfg.yml", "/abs/proj/cfg.yml", rfl, rfl, rfl, rfl, rfl⟩)
  have h2 := (generateServer_called_once_after_overlay Server.petWithConfig
    World.namingEngine).2.2 hdef { assemble () Server.skipModels with Name := "petstore" } rfl
  ⟨hflags, hdef, hl, h1.1, h1.2, h2.1, h2.2.2.1, h2.2.2.2.2.2.1⟩

/-- Witness for C10: the flags `--config-file cfg.yml` with `DEBUG=1` and with `DEBUG` unset. -/
theorem debug_toggle_only_logs_witness :
    Event.Debug "/abs/proj/cfg.yml"
      ∈ (Server.withConfig.Execute (World.plain.withDebug "1" "")).trace ∧
    ("1" ≠ "" ∨ "" ≠ "") ∧
    (∃ apt, Event.ReadConfig apt
        ∈ (Server.withConfig.Execute (World.plain.withDebug "1" "")).trace ∧
      World.plain.ReadConfig apt = (some "/abs/proj/cfg.yml", none)) ∧
    (Server.withConfig.Execute (World.plain.withDebug "1" "")).outcome
      = (Server.withConfig.Execute (World.plain.withDebug "" "")).outcome ∧
    (Server.withConfig.Execute (World.plain.withDebug "1" "")).calls
      = (Server.withConfig.Execute (World.plain.withDebug "" "")).calls :=
  have h := debug_toggle_only_logs Server.withConfig World.plain "1" "" "" ""
  have h4 := h.2.2.2 "/abs/proj/cfg.yml" (by decide)
  ⟨by decide, h4.1, h4.2, h.1, h.2.1⟩

end GoSwagger
